import Mathlib

/-!
Verification development for the persistent filter-context engine of a
conversational analytics assistant.  The Python sources under
`src/src/filters/` are shallowly embedded below: regex-driven detectors are
embedded via a small executable regex engine mirroring the semantics of the
Python `re` calls actually used (leftmost search, left-biased alternation,
greedy/lazy quantifiers with backtracking, word boundaries, capture groups),
dictionaries become ordered association lists (Python 3.7+ insertion order),
and Python exceptions become `Except` values.
-/

namespace S2P

/-! ### Characters and Python-style string helpers -/

/-- The apostrophe character (used in SQL literal patterns). -/
def squo : Char := Char.ofNat 39

/-- Backtick (used in the markdown JSON-block pattern). -/
def bquo : Char := Char.ofNat 96

/-- Left curly brace. -/
def lbr : Char := Char.ofNat 123

/-- Right curly brace. -/
def rbr : Char := Char.ofNat 125

/-- Python `\d` on ASCII input. -/
def isDigitCh (c : Char) : Bool := c.isDigit

/-- Python (unicode) `\w`: ASCII alphanumerics, underscore, and any
non-ASCII codepoint (covers the accented Portuguese letters that occur in
this repository's patterns and inputs). -/
def isWordCh (c : Char) : Bool :=
  c.isAlphanum || c = '_' || decide (c.val ≥ 128)

/-- Python `\s`. -/
def isSpaceCh (c : Char) : Bool :=
  c = ' ' || c = '\t' || c = '\n' || c = '\r' || c = Char.ofNat 11 || c = Char.ofNat 12

/-- Python `str.lower` (ASCII; the repository lowercases ASCII keywords). -/
def lowerStr (s : String) : String := String.mk (s.data.map Char.toLower)

/-- Python `str.upper` (ASCII). -/
def upperStr (s : String) : String := String.mk (s.data.map Char.toUpper)

/-- Python `str.strip()` on a char list. -/
def stripChars (l : List Char) : List Char :=
  ((l.dropWhile isSpaceCh).reverse.dropWhile isSpaceCh).reverse

/-- Python `str.strip()`. -/
def strip (s : String) : String := String.mk (stripChars s.data)

/-- Python `s.startswith(pre)` (kernel-reducible, unlike
`String.startsWith`). -/
def strStarts (s pre : String) : Bool := pre.data.isPrefixOf s.data

/-- Python `s.endswith(suf)`. -/
def strEnds (s suf : String) : Bool := suf.data.isSuffixOf s.data

def replChars (fuel : Nat) (s pat repl : List Char) : List Char :=
  match fuel with
  | 0 => s
  | f + 1 =>
    match s with
    | [] => []
    | c :: rest =>
      if !pat.isEmpty && pat.isPrefixOf s then
        repl ++ replChars f (s.drop pat.length) pat repl
      else c :: replChars f rest pat repl

/-- Python `s.replace(pat, repl)` (left-to-right, non-overlapping; the
embedded code never passes an empty pattern). -/
def pyReplace (s pat repl : String) : String :=
  String.mk (replChars (s.data.length + 1) s.data pat.data repl.data)

def splitOnChGo (sep : Char) (l : List Char) (cur : List Char) :
    List (List Char) :=
  match l with
  | [] => [cur.reverse]
  | c :: rest =>
    if c = sep then cur.reverse :: splitOnChGo sep rest []
    else splitOnChGo sep rest (c :: cur)

/-- Python `s.split(sep)` for a one-character separator. -/
def splitOnCh (s : String) (sep : Char) : List String :=
  (splitOnChGo sep s.data []).map String.mk

/-- Whether `pat` occurs as a contiguous sublist of `s` (Python `in`). -/
def listHasSub (pat s : List Char) : Bool :=
  match s with
  | [] => pat.isEmpty
  | _ :: rest => pat.isPrefixOf s || listHasSub pat rest

/-- Python `sub in s` for strings. -/
def hasSub (s sub : String) : Bool := listHasSub sub.data s.data

/-- Two-digit zero-padded rendering (Python `f"{n:02d}"` for `0 ≤ n`). -/
def fmt2 (n : Nat) : String := if n < 10 then "0" ++ toString n else toString n

/-- Python `str.title()` for ASCII text: uppercase each cased character that
follows a non-cased character, lowercase the rest. -/
def pyTitle (s : String) : String :=
  String.mk ((s.data.foldl (fun (acc : List Char × Bool) c =>
    let cased := c.isAlpha
    let c' := if cased then (if acc.2 then c.toLower else c.toUpper) else c
    (c' :: acc.1, cased)) ([], false)).1.reverse)

/-- Python `int(s)` on a nonempty all-digit string. -/
def digitsToNat (s : String) : Option Nat :=
  if s.data ≠ [] && s.data.all isDigitCh then
    some (s.data.foldl (fun n c => n * 10 + (c.toNat - 48)) 0)
  else none

/-! ### A small regex engine

Only the constructs used by the embedded Python patterns are supported:
character classes, concatenation, left-biased alternation, greedy and lazy
star (with backtracking), capture groups, word boundaries and the `$`
anchor.  `search`/`findall` scan for the leftmost match like Python `re`. -/

/-- One item of a character class. -/
inductive CItem where
  | ch (c : Char)
  | dig
  | wrd
  | spc
  | ucaseAZ
deriving Repr, DecidableEq

/-- A character class: a positive `[..]` or negated `[^..]` set of items. -/
inductive RCls where
  | pos (items : List CItem)
  | neg (items : List CItem)
  | anyc (dotall : Bool)
deriving Repr, DecidableEq

def citemMatches (i : CItem) (c : Char) : Bool :=
  match i with
  | .ch c' => c = c'
  | .dig => isDigitCh c
  | .wrd => isWordCh c
  | .spc => isSpaceCh c
  | .ucaseAZ => 'A' ≤ c && c ≤ 'Z'

def clsMatches (r : RCls) (c : Char) : Bool :=
  match r with
  | .pos items => items.any (citemMatches · c)
  | .neg items => !items.any (citemMatches · c)
  | .anyc dotall => dotall || c ≠ '\n'

/-- Regular expressions (the fragment the embedded patterns use). -/
inductive Rx where
  | eps
  | cls (c : RCls)
  | cat (a b : Rx)
  | alt (a b : Rx)
  | star (a : Rx) (greedy : Bool)
  | grp (a : Rx)
  | wb
  | eost (multiline : Bool)
deriving Repr

/-- Literal character. -/
def Rx.lit (c : Char) : Rx := .cls (.pos [.ch c])

/-- Literal string. -/
def lits (s : String) : Rx := s.data.foldr (fun c r => Rx.cat (Rx.lit c) r) Rx.eps

/-- Case-insensitive literal string (for patterns compiled with
`re.IGNORECASE`). -/
def litsCI (s : String) : Rx :=
  s.data.foldr (fun c r => Rx.cat (Rx.cls (.pos [.ch c.toLower, .ch c.toUpper])) r) Rx.eps

/-- `\d`. -/
def rxd : Rx := .cls (.pos [.dig])

/-- `\w`. -/
def rxw : Rx := .cls (.pos [.wrd])

/-- `\s`. -/
def rxs : Rx := .cls (.pos [.spc])

/-- `a?` (greedy optional). -/
def Rx.opt (a : Rx) : Rx := .alt a .eps

/-- `a+` (greedy). -/
def Rx.pls (a : Rx) : Rx := .cat a (.star a true)

/-- Chained alternation (left-biased, like the Python `|`). -/
def altList : List Rx → Rx
  | [] => Rx.eps
  | [r] => r
  | r :: rest => Rx.alt r (altList rest)

def rxSize : Rx → Nat
  | .eps => 1
  | .cls _ => 1
  | .cat a b => rxSize a + rxSize b + 1
  | .alt a b => rxSize a + rxSize b + 1
  | .star a _ => rxSize a + 1
  | .grp a => rxSize a + 1
  | .wb => 1
  | .eost _ => 1

def isWordOpt : Option Char → Bool
  | none => false
  | some c => isWordCh c

def isWordHead : List Char → Bool
  | [] => false
  | c :: _ => isWordCh c

/-- Backtracking matcher in continuation style.  `prev` is the character
just before the current position (for `\b`); `caps` collects capture groups
in completion order (the embedded patterns have no nested captures, so this
agrees with Python's numbering).  The fuel only bounds recursion depth;
`search`/`findall` below always pass enough of it. -/
def mrun (fuel : Nat) (r : Rx) (inp : List Char) (prev : Option Char)
    (caps : List String)
    (k : List Char → Option Char → List String → Option (List String × List Char)) :
    Option (List String × List Char) :=
  match fuel with
  | 0 => none
  | fuel' + 1 =>
    match r with
    | .eps => k inp prev caps
    | .cls c =>
      match inp with
      | [] => none
      | x :: rest => if clsMatches c x then k rest (some x) caps else none
    | .cat a b =>
      mrun fuel' a inp prev caps (fun i p cs => mrun fuel' b i p cs k)
    | .alt a b =>
      (mrun fuel' a inp prev caps k) <|> (mrun fuel' b inp prev caps k)
    | .star a greedy =>
      if greedy then
        (mrun fuel' a inp prev caps (fun i p cs =>
          if i.length < inp.length then mrun fuel' (.star a true) i p cs k else none))
        <|> k inp prev caps
      else
        (k inp prev caps) <|>
        (mrun fuel' a inp prev caps (fun i p cs =>
          if i.length < inp.length then mrun fuel' (.star a false) i p cs k else none))
    | .grp a =>
      mrun fuel' a inp prev caps (fun i p cs =>
        k i p (cs ++ [String.mk (inp.take (inp.length - i.length))]))
    | .wb =>
      if isWordOpt prev ≠ isWordHead inp then k inp prev caps else none
    | .eost ml =>
      match inp with
      | [] => k inp prev caps
      | x :: _ => if ml && x = '\n' then k inp prev caps else none

/-- Enough fuel for any match of `r` against `inp`. -/
def bigFuel (r : Rx) (inp : List Char) : Nat :=
  (inp.length + 2) * (rxSize r + 2) * 4 + 64

/-- Try to match `r` at the start of `inp`: on success, the captures and the
number of characters consumed. -/
def tryAt (r : Rx) (inp : List Char) (prev : Option Char) :
    Option (List String × Nat) :=
  match mrun (bigFuel r inp) r inp prev [] (fun i _ cs => some (cs, i)) with
  | some (cs, rest) => some (cs, inp.length - rest.length)
  | none => none

/-- All non-overlapping matches, scanning left to right (Python
`re.finditer`/`findall`): each match gives (captures, whole match). -/
def findallGo (fuel : Nat) (r : Rx) (inp : List Char) (prev : Option Char) :
    List (List String × String) :=
  match fuel with
  | 0 => []
  | f + 1 =>
    match tryAt r inp prev with
    | some (cs, len) =>
      let whole := String.mk (inp.take len)
      if len = 0 then
        match inp with
        | [] => [(cs, whole)]
        | c :: rest => (cs, whole) :: findallGo f r rest (some c)
      else
        (cs, whole) :: findallGo f r (inp.drop len)
          (match (inp.take len).getLast? with
           | some c => some c
           | none => prev)
    | none =>
      match inp with
      | [] => []
      | c :: rest => findallGo f r rest (some c)

/-- Python `re.findall(r, s)`: (captures, whole) for each match. -/
def findall (r : Rx) (s : String) : List (List String × String) :=
  findallGo (s.data.length + 1) r s.data none

/-- Python `re.search(r, s)`: the first match's (captures, whole), if any. -/
def rsearch (r : Rx) (s : String) : Option (List String × String) :=
  (findall r s).head?

/-- Whether `re.search(r, s)` succeeds. -/
def rmatches (r : Rx) (s : String) : Bool := (rsearch r s).isSome

/-! ### Gregorian dates (for `datetime`/`timedelta` arithmetic) -/

/-- A `datetime.date`-like value (time-of-day is never used by the embedded
code). -/
structure PDate where
  year : Nat
  month : Nat
  day : Nat
deriving Repr, DecidableEq

def isLeap (y : Nat) : Bool := (y % 4 = 0 && y % 100 ≠ 0) || y % 400 = 0

def daysInMonth (y m : Nat) : Nat :=
  if m = 2 then (if isLeap y then 29 else 28)
  else if m = 4 || m = 6 || m = 9 || m = 11 then 30
  else 31

/-- The previous calendar day. -/
def datePrev (d : PDate) : PDate :=
  if d.day > 1 then ⟨d.year, d.month, d.day - 1⟩
  else if d.month > 1 then ⟨d.year, d.month - 1, daysInMonth d.year (d.month - 1)⟩
  else ⟨d.year - 1, 12, 31⟩

/-- `d - timedelta(days := n)`. -/
def subDays (d : PDate) : Nat → PDate
  | 0 => d
  | n + 1 => subDays (datePrev d) n

/-- `d.replace(day := 1)`. -/
def firstOfMonth (d : PDate) : PDate := ⟨d.year, d.month, 1⟩

/-- `d.strftime("%Y-%m-%d")` (the embedded code only formats 4-digit years). -/
def fmtDate (d : PDate) : String :=
  toString d.year ++ "-" ++ fmt2 d.month ++ "-" ++ fmt2 d.day

/-! ### Python values decoded from JSON

Values produced by `json.loads` and flowed through the filter manager.
Numbers are modelled as integers (the filter JSON only carries integral
numbers; no claim depends on float formatting). -/

inductive Json where
  | null
  | bool (b : Bool)
  | num (n : Int)
  | str (s : String)
  | arr (items : List Json)
  | obj (items : List (String × Json))
deriving Repr

mutual

def Json.beq : Json → Json → Bool
  | .null, .null => true
  | .bool a, .bool b => a = b
  | .num a, .num b => a = b
  | .str a, .str b => a = b
  | .arr a, .arr b => Json.beqList a b
  | .obj a, .obj b => Json.beqObj a b
  | _, _ => false

def Json.beqList : List Json → List Json → Bool
  | [], [] => true
  | a :: as', b :: bs' => Json.beq a b && Json.beqList as' bs'
  | _, _ => false

def Json.beqObj : List (String × Json) → List (String × Json) → Bool
  | [], [] => true
  | (ka, va) :: as', (kb, vb) :: bs' => ka = kb && Json.beq va vb && Json.beqObj as' bs'
  | _, _ => false

end

instance : BEq Json := ⟨Json.beq⟩

/-- Python truthiness of a decoded JSON value. -/
def jTruthy : Json → Bool
  | .null => false
  | .bool b => b
  | .num n => n ≠ 0
  | .str s => s ≠ ""
  | .arr l => !l.isEmpty
  | .obj l => !l.isEmpty

/-- Whether the value is a Python `dict`. -/
def jIsObj : Json → Bool
  | .obj _ => true
  | _ => false

/-- Whether the value is a Python `list`. -/
def jIsArr : Json → Bool
  | .arr _ => true
  | _ => false

mutual

/-- Python `repr` of a decoded JSON value (as used inside `str` of a
container). -/
def pyRepr : Json → String
  | .null => "None"
  | .bool b => if b then "True" else "False"
  | .num n => toString n
  | .str s => String.mk (squo :: s.data) ++ String.mk [squo]
  | .arr items => "[" ++ pyReprList items ++ "]"
  | .obj items => String.mk [lbr] ++ pyReprObj items ++ String.mk [rbr]

def pyReprList : List Json → String
  | [] => ""
  | [x] => pyRepr x
  | x :: rest => pyRepr x ++ ", " ++ pyReprList rest

def pyReprObj : List (String × Json) → String
  | [] => ""
  | [(k, v)] => pyRepr (.str k) ++ ": " ++ pyRepr v
  | (k, v) :: rest => pyRepr (.str k) ++ ": " ++ pyRepr v ++ ", " ++ pyReprObj rest

end

/-- Python `str` of a decoded JSON value. -/
def pyStr : Json → String
  | .str s => s
  | v => pyRepr v

/-! ### `json.loads`

A recursive-descent JSON reader returning `none` on any decode error
(Python raises `json.JSONDecodeError`, always caught by the callers
embedded below).  Numeric literals are restricted to integers, matching the
`Json.num` model. -/

def jsWs (l : List Char) : List Char :=
  l.dropWhile (fun c => c = ' ' || c = '\t' || c = '\n' || c = '\r')

def jsStrBody (fuel : Nat) (l : List Char) (acc : List Char) :
    Option (String × List Char) :=
  match fuel with
  | 0 => none
  | f + 1 =>
    match l with
    | [] => none
    | c :: rest =>
      if c = '"' then some (String.mk acc.reverse, rest)
      else if c = '\\' then
        match rest with
        | [] => none
        | e :: rest' =>
          if e = '"' then jsStrBody f rest' ('"' :: acc)
          else if e = '\\' then jsStrBody f rest' ('\\' :: acc)
          else if e = '/' then jsStrBody f rest' ('/' :: acc)
          else if e = 'n' then jsStrBody f rest' ('\n' :: acc)
          else if e = 't' then jsStrBody f rest' ('\t' :: acc)
          else if e = 'r' then jsStrBody f rest' ('\r' :: acc)
          else if e = 'b' then jsStrBody f rest' (Char.ofNat 8 :: acc)
          else if e = 'f' then jsStrBody f rest' (Char.ofNat 12 :: acc)
          else none
      else jsStrBody f rest (c :: acc)

mutual

def jsVal (fuel : Nat) (l : List Char) : Option (Json × List Char) :=
  match fuel with
  | 0 => none
  | f + 1 =>
    match jsWs l with
    | [] => none
    | c :: rest =>
      if c = '"' then
        match jsStrBody (rest.length + 1) rest [] with
        | some (s, r) => some (.str s, r)
        | none => none
      else if c = '[' then
        match jsWs rest with
        | ']' :: r => some (.arr [], r)
        | l' => match jsArrItems f l' with
                | some (items, r) => some (.arr items, r)
                | none => none
      else if c = lbr then
        match jsWs rest with
        | c' :: r =>
          if c' = rbr then some (.obj [], r)
          else match jsObjItems f (c' :: r) with
               | some (items, r') => some (.obj items, r')
               | none => none
        | [] => none
      else if c = 't' then
        if ['r', 'u', 'e'].isPrefixOf rest then some (.bool true, rest.drop 3) else none
      else if c = 'f' then
        if ['a', 'l', 's', 'e'].isPrefixOf rest then some (.bool false, rest.drop 4) else none
      else if c = 'n' then
        if ['u', 'l', 'l'].isPrefixOf rest then some (.null, rest.drop 3) else none
      else if c = '-' || isDigitCh c then
        let (digits, r) := ((if c = '-' then rest else c :: rest).span isDigitCh)
        if digits.isEmpty then none
        else
          match r with
          | '.' :: _ => none
          | 'e' :: _ => none
          | 'E' :: _ => none
          | _ =>
            let n : Int := digits.foldl (fun n d => n * 10 + (d.toNat - 48)) (0 : Int)
            some (.num (if c = '-' then -n else n), r)
      else none

def jsArrItems (fuel : Nat) (l : List Char) : Option (List Json × List Char) :=
  match fuel with
  | 0 => none
  | f + 1 =>
    match jsVal f l with
    | none => none
    | some (v, r) =>
      match jsWs r with
      | ',' :: r' =>
        match jsArrItems f r' with
        | some (items, r'') => some (v :: items, r'')
        | none => none
      | ']' :: r' => some ([v], r')
      | _ => none

def jsObjItems (fuel : Nat) (l : List Char) : Option (List (String × Json) × List Char) :=
  match fuel with
  | 0 => none
  | f + 1 =>
    match jsWs l with
    | '"' :: r =>
      match jsStrBody (r.length + 1) r [] with
      | none => none
      | some (k, r') =>
        match jsWs r' with
        | ':' :: r'' =>
          match jsVal f r'' with
          | none => none
          | some (v, r3) =>
            match jsWs r3 with
            | ',' :: r4 =>
              match jsObjItems f r4 with
              | some (items, r5) => some ((k, v) :: items, r5)
              | none => none
            | c :: r4 => if c = rbr then some ([(k, v)], r4) else none
            | [] => none
        | _ => none
    | _ => none

end

/-- Python `json.loads`: `none` models a raised `JSONDecodeError`. -/
def jsonLoads (s : String) : Option Json :=
  match jsVal (s.length * 2 + 8) s.data with
  | some (v, r) => if (jsWs r).isEmpty then some v else none
  | none => none

/-! ### Ordered dictionaries (Python `dict` semantics)

Association lists with unique keys; assignment to an existing key keeps its
position, a new key is appended (Python 3.7+ insertion order). -/

abbrev Ctx := List (String × Json)

/-- `d.get(k)` / `d[k]`. -/
def dget (d : Ctx) (k : String) : Option Json :=
  match d with
  | [] => none
  | (k', v) :: rest => if k' = k then some v else dget rest k

/-- `k in d`. -/
def dmem (d : Ctx) (k : String) : Bool := (dget d k).isSome

/-- `d[k] = v`. -/
def dset (d : Ctx) (k : String) (v : Json) : Ctx :=
  match d with
  | [] => [(k, v)]
  | (k', v') :: rest => if k' = k then (k', v) :: rest else (k', v') :: dset rest k v

/-- `del d[k]` / `d.pop(k, None)`. -/
def ddel (d : Ctx) (k : String) : Ctx :=
  match d with
  | [] => []
  | (k', v') :: rest => if k' = k then rest else (k', v') :: ddel rest k

/-- `d.update(u)`: assign `u`'s items in order. -/
def dupdate (d u : Ctx) : Ctx := u.foldl (fun acc kv => dset acc kv.1 kv.2) d

/-- `list(d.keys())`. -/
def dkeys (d : Ctx) : List String := d.map Prod.fst

/-! ### Python dynamic-typing helpers

Operations whose Python counterparts raise on certain operand types; the
`Except` error models the raised exception (the filter manager's top-level
handler catches every `Exception`). -/

/-- `len(j)`: raises `TypeError` for numbers, booleans and `None`. -/
def jLen : Json → Except String Nat
  | .str s => .ok s.length
  | .arr l => .ok l.length
  | .obj l => .ok l.length
  | _ => .error "TypeError: object has no len()"

/-- `j.get(k)`: only `dict` has `.get`. -/
def jGetM (j : Json) (k : String) : Except String (Option Json) :=
  match j with
  | .obj items => .ok (dget items k)
  | _ => .error "AttributeError: get"

/-- `j.items()`: only `dict` has `.items`. -/
def jItems : Json → Except String (List (String × Json))
  | .obj items => .ok items
  | _ => .error "AttributeError: items"

/-- `k in j` for a string `k`: key test on `dict`, membership on `list`,
substring test on `str`, `TypeError` otherwise. -/
def jIn (k : String) (j : Json) : Except String Bool :=
  match j with
  | .obj items => .ok (dmem items k)
  | .arr l => .ok (l.any (Json.beq (.str k)))
  | .str s => .ok (hasSub s k)
  | _ => .error "TypeError: argument is not iterable"

/-- `j[k]` for a string `k`: `dict` lookup (`KeyError` when missing),
`TypeError` on any other type. -/
def jIndex (j : Json) (k : String) : Except String Json :=
  match j with
  | .obj items =>
    match dget items k with
    | some v => .ok v
    | none => .error ("KeyError: " ++ k)
  | _ => .error "TypeError: indices must be integers"

/-- `for x in j`: list elements, the characters of a string, or the keys of
a dict; `TypeError` otherwise. -/
def jIter : Json → Except String (List Json)
  | .arr l => .ok l
  | .str s => .ok (s.data.map (fun c => .str (String.mk [c])))
  | .obj items => .ok (items.map (fun kv => Json.str kv.1))
  | _ => .error "TypeError: object is not iterable"

/-- Python-set display of a list of keys (the iteration order of a CPython
set is hash-dependent; the embedding uses the context's key order, which no
claim inspects). -/
def pySetStr (l : List String) : String :=
  String.mk [lbr] ++ String.intercalate ", " (l.map (fun k => pyRepr (.str k)))
    ++ String.mk [rbr]

/-! ### `JSONFilterManager` (src/src/filters/json_filter_manager_backup.py)

The manager is parameterised by `valores_validos`, the domain index the
constructor derives from the dataset (per-column deduplicated non-null
value lists). -/

/-- The per-column legal-value index (`self.valores_validos`). -/
abbrev Domain := List (String × List Json)

def domGet (dom : Domain) (campo : String) : Option (List Json) :=
  match dom with
  | [] => none
  | (k, vs) :: rest => if k = campo then some vs else domGet rest campo

/-- `JSONFilterManager.validar_valores`'s permissive allow-list. -/
def camposPermissivos : List String :=
  ["Data", "Data_>=", "Data_<", "periodo", "mes", "ano",
   "cidade", "estado", "municipio", "uf",
   "cliente", "produto", "linha", "segmento"]

/-- The fuzzy pass of `validar_valores`: for each candidate string, the
first legal string matching case-insensitively in either direction
(`matches[:1]`), all concatenated. -/
def fuzzyFold (valoresStr validosStr : List String) : List String :=
  valoresStr.foldl (fun acc valor =>
    acc ++ (validosStr.filter (fun v =>
      hasSub (upperStr v) (upperStr valor)
        || hasSub (upperStr valor) (upperStr v))).take 1) []

/-- `JSONFilterManager.validar_valores`. -/
def validarValores (dom : Domain) (campo : String) (valores : List Json)
    (_categoria : String) : List Json :=
  if campo ∈ camposPermissivos
      || lowerStr campo ∈ camposPermissivos.map lowerStr then
    valores
  else
    match domGet dom campo with
    | some legais =>
      let valoresStr := valores.map pyStr
      let validosStr := legais.map pyStr
      let valoresExatos := valoresStr.filter (fun v => validosStr.contains v)
      if valoresExatos.isEmpty && !valoresStr.isEmpty then
        if !(fuzzyFold valoresStr validosStr).isEmpty then
          (fuzzyFold valoresStr validosStr).map Json.str
        else valoresExatos.map Json.str
      else valoresExatos.map Json.str
    | none => valores

/-- `JSONFilterManager._campo_permite_multiplos_valores`. -/
def campoPermiteMultiplos (campo : String) : Bool :=
  let camposLista := ["UF_Cliente", "Municipio_Cliente", "Cod_Cliente",
    "Cod_Segmento_Cliente", "Cod_Familia_Produto", "Cod_Grupo_Produto",
    "Cod_Linha_Produto", "Des_Linha_Produto", "Cod_Vendedor", "Cod_Regiao_Vendedor"]
  let camposUnicos := ["Data", "Data_>=", "Data_<", "periodo", "mes", "ano"]
  if campo ∈ camposUnicos then false
  else if campo ∈ camposLista then true
  else true

/-- A Python value viewed as a list (`[v]` for a scalar), as
`_merge_lista_valores` normalises values. -/
def jToList : Json → List Json
  | .arr l => l
  | v => [v]

/-- `JSONFilterManager._merge_lista_valores` (`valorExistente = none` models
an absent key, whose `dict.get` is `None`). -/
def mergeListaValores (valorExistente : Option Json) (novoValor : Json) : Json :=
  let existenteLista : List Json :=
    match valorExistente with
    | some v => if jTruthy v then jToList v else []
    | none => []
  let resultado := (jToList novoValor).foldl (fun acc item =>
    if acc.any (Json.beq item) then acc else acc ++ [item]) existenteLista
  match resultado with
  | [x] => x
  | l => .arr l

/-- Modelled from the spec: `src.text_normalizer.normalizer` is not under
`src/`; per the spec (§3, §4.3) a `{mes, ano}` month is lowered to
first-of-month `Data_>=`/`Data_<` range keys, exactly as the in-repository
reimplementation `_convert_sql_json_to_context` does (digit strings or
integers accepted, no month-range validation). -/
def convertMesAnoRanges (mes ano : Json) : Option (String × String) :=
  let mesInt? : Option Nat :=
    match mes with
    | .num n => if n ≥ 0 then some n.toNat else none
    | .str s => digitsToNat s
    | _ => none
  let anoInt? : Option Nat :=
    match ano with
    | .num n => if n ≥ 0 then some n.toNat else none
    | .str s => digitsToNat s
    | _ => none
  match mesInt?, anoInt? with
  | some m, some a =>
    let startDate := toString a ++ "-" ++ fmt2 m ++ "-01"
    let (ey, em) := if m = 12 then (a + 1, 1) else (a, m + 1)
    some (startDate, toString ey ++ "-" ++ fmt2 em ++ "-01")
  | _, _ => none

/-- Modelled from the spec: the `{inicio, fim}` month-interval structure is
lowered to a `Data_>=`/`Data_<` range from the first day of the start month
to the first day of the month after the end month (spec §3; mirrors
`_convert_sql_json_to_context`'s interval branch). -/
def convertIntervalRanges (inicio fim : Json) : Option (String × String) :=
  match inicio, fim with
  | .obj iniItems, .obj fimItems =>
    match dget iniItems "mes", dget iniItems "ano",
          dget fimItems "mes", dget fimItems "ano" with
    | some im, some ia, some fm, some fa =>
      match convertMesAnoRanges im ia, convertMesAnoRanges fm fa with
      | some (s, _), some (_, e) => some (s, e)
      | _, _ => none
    | _, _, _, _ => none
  | _, _ => none

/-- Deletes every context key starting with `"Data"`
(`for key in list(contexto.keys()): if key.startswith("Data"): del ...`). -/
def deleteDataKeys (contexto : Ctx) : Ctx :=
  contexto.filter (fun kv => !strStarts kv.1 "Data")

def showJOpt : Option Json → String
  | some v => pyStr v
  | none => ""

/-- One step of `_processar_periodo_estruturado`'s direct-range loop
(`for campo in ["Data_>=", "Data_<"]: if campo in campos and campos[campo]`). -/
def periodoRangeStep (campos : Json) (acc : Ctx × List String) (campo : String) :
    Except String (Ctx × List String) :=
  match jIn campo campos with
  | .error e => .error e
  | .ok hasK =>
    if hasK then
      match jIndex campos campo with
      | .error e => .error e
      | .ok v =>
        if jTruthy v then
          .ok (dset acc.1 campo v,
            acc.2 ++ ["+ Data range: " ++ campo ++ " = " ++ pyStr v])
        else .ok acc
    else .ok acc

/-- `JSONFilterManager._processar_periodo_estruturado`. -/
def processarPeriodoEstruturado (campos : Json) (contexto : Ctx) :
    Except String (Ctx × List String) :=
  match jIn "inicio" campos with
  | .error e => .error e
  | .ok hasIni =>
    match jIn "fim" campos with
    | .error e => .error e
    | .ok hasFim =>
      if hasIni && hasFim then
        match jIndex campos "inicio" with
        | .error e => .error e
        | .ok inicio =>
          match jIndex campos "fim" with
          | .error e => .error e
          | .ok fim =>
            if jTruthy inicio && jTruthy fim && jIsObj inicio && jIsObj fim then
              match convertIntervalRanges inicio fim with
              | some (ds, de) =>
                .ok (dset (dset (deleteDataKeys contexto) "Data_>=" (.str ds))
                      "Data_<" (.str de),
                  ["+ Interval: " ++ showJOpt (jIndex inicio "mes").toOption
                    ++ "/" ++ showJOpt (jIndex inicio "ano").toOption
                    ++ " até " ++ showJOpt (jIndex fim "mes").toOption
                    ++ "/" ++ showJOpt (jIndex fim "ano").toOption
                    ++ " → " ++ ds ++ " até " ++ de])
              | none =>
                .ok (contexto, ["❌ Falha ao converter interval para ranges de data"])
            else .ok (contexto, [])
      else
        match jIn "mes" campos with
        | .error e => .error e
        | .ok hasMes =>
          match jIn "ano" campos with
          | .error e => .error e
          | .ok hasAno =>
            if hasMes && hasAno then
              match jIndex campos "mes" with
              | .error e => .error e
              | .ok mes =>
                match jIndex campos "ano" with
                | .error e => .error e
                | .ok ano =>
                  if jTruthy mes && jTruthy ano then
                    match convertMesAnoRanges mes ano with
                    | some (ds, de) =>
                      .ok (dset (dset (deleteDataKeys contexto) "Data_>=" (.str ds))
                            "Data_<" (.str de),
                        ["+ Mês único: " ++ pyStr mes ++ "/" ++ pyStr ano
                          ++ " → " ++ ds ++ " até " ++ de])
                    | none =>
                      .ok (contexto,
                        ["❌ Falha ao converter mês/ano para ranges de data"])
                  else .ok (contexto, [])
            else
              match jIn "Data_>=" campos with
              | .error e => .error e
              | .ok hasGe =>
                match jIn "Data_<" campos with
                | .error e => .error e
                | .ok hasLt =>
                  if hasGe || hasLt then
                    match periodoRangeStep campos (contexto, []) "Data_>=" with
                    | .error e => .error e
                    | .ok acc1 => periodoRangeStep campos acc1 "Data_<"
                  else
                    match jIn "Data" campos with
                    | .error e => .error e
                    | .ok hasData =>
                      if hasData then
                        match jIndex campos "Data" with
                        | .error e => .error e
                        | .ok v =>
                          if jTruthy v then
                            .ok (dset contexto "Data" v, ["+ Data: " ++ pyStr v])
                          else .ok (contexto, [])
                      else .ok (contexto, [])

/-- Python truthiness of a `dict.get` result (`None` when absent). -/
def truthyOpt : Option Json → Bool
  | some v => jTruthy v
  | none => false

/-- Python's `valor_existente is not None and valor_existente != [] and
valor_existente != ""` on a `dict.get` result. -/
def existenteNaoVazio : Option Json → Bool
  | none => false
  | some .null => false
  | some (.arr []) => false
  | some (.str "") => false
  | some _ => true

/-- One iteration of `_processar_categoria_com_merge`'s field loop
(pure: every raising operation happens before the loop). -/
def mergeCampoStep (dom : Domain) (categoria : String)
    (acc : Ctx × List String) (kv : String × Json) : Ctx × List String :=
  let (contexto, mud) := acc
  let campo := kv.1
  let valorJson := kv.2
  let valorExistente := dget contexto campo
  if valorJson == Json.null then
    if existenteNaoVazio valorExistente then
      (contexto, mud ++ ["Preservado: " ++ campo ++ " = " ++ showJOpt valorExistente
        ++ " (JSON null, mas valor existe)"])
    else (contexto, mud)
  else
    let (vv, mud1) :=
      match valorJson with
      | .arr l =>
        let valid := validarValores dom campo l categoria
        (Json.arr valid,
         if valid.isEmpty && jTruthy valorJson then
           mud ++ ["Rejeitados valores inválidos para " ++ campo ++ ": " ++ pyStr valorJson]
         else mud)
      | v =>
        let valid := validarValores dom campo [v] categoria
        match valid with
        | x :: _ => (x, mud)
        | [] =>
          (Json.arr [],
           if jTruthy v then
             mud ++ ["Rejeitado valor inválido para " ++ campo ++ ": " ++ pyStr v]
           else mud)
    if !jTruthy vv then
      if existenteNaoVazio valorExistente then
        (contexto, mud1 ++ ["Preservado por fallback: " ++ campo ++ " = "
          ++ showJOpt valorExistente ++ " (validação falhou)"])
      else (contexto, mud1)
    else if campoPermiteMultiplos campo then
      let valoresFinais := mergeListaValores valorExistente vv
      if !(match valorExistente with
           | some ve => Json.beq valoresFinais ve
           | none => false) then
        (dset contexto campo valoresFinais,
         mud1 ++ ["+ Merged: " ++ campo ++ " = " ++ pyStr valoresFinais])
      else (contexto, mud1)
    else
      if !(match valorExistente with
           | some ve => Json.beq vv ve
           | none => false) then
        (dset contexto campo vv,
         mud1 ++ (if truthyOpt valorExistente then
           ["* Atualizado: " ++ campo ++ " de " ++ pyRepr (.str (showJOpt valorExistente))
             ++ " para " ++ pyRepr (.str (pyStr vv))]
         else
           ["+ Adicionado: " ++ campo ++ " = " ++ pyStr vv]))
      else (contexto, mud1)

/-- `JSONFilterManager._processar_categoria_com_merge`. -/
def processarCategoriaComMerge (dom : Domain) (categoria : String)
    (campos : Json) (contexto : Ctx) : Except String (Ctx × List String) :=
  if categoria = "periodo" then processarPeriodoEstruturado campos contexto
  else
    match jItems campos with
    | .error e => .error e
    | .ok items => .ok (items.foldl (mergeCampoStep dom categoria) (contexto, []))

/-- One removal of `_processar_remocoes`' loop. -/
def remocaoStep (acc : Ctx × List String) (filtro : Json) : Ctx × List String :=
  match filtro with
  | .str k =>
    match dget acc.1 k with
    | some valorRemovido =>
      (ddel acc.1 k, acc.2 ++ ["- Removido: " ++ k ++ " = " ++ pyStr valorRemovido])
    | none => acc
  | _ => acc

/-- `JSONFilterManager._processar_remocoes`. -/
def processarRemocoes (removerFiltros : Json) (contexto : Ctx) :
    Except String (Ctx × List String) :=
  match jIter removerFiltros with
  | .error e => .error e
  | .ok items => .ok (items.foldl remocaoStep (contexto, []))

/-- The five recognised filter categories. -/
def fiveCats : List String := ["periodo", "regiao", "cliente", "produto", "representante"]

/-- The `sum(len(campos) for categoria, campos in json_filtros.items() if
categoria in [...])` accumulation (raises when a counted category payload
has no `len`). -/
def totalLoop : List (String × Json) → Nat → Except String Nat
  | [], acc => .ok acc
  | kv :: rest, acc =>
    if kv.1 ∈ fiveCats then
      match jLen kv.2 with
      | .error e => .error e
      | .ok n => totalLoop rest (acc + n)
    else totalLoop rest acc

/-- The per-category processing loop of `_atualizar_filtros_do_json`. -/
def catLoop (dom : Domain) : List (String × Json) → Ctx × List String →
    Except String (Ctx × List String)
  | [], acc => .ok acc
  | kv :: rest, acc =>
    if kv.1 ∈ fiveCats then
      match processarCategoriaComMerge dom kv.1 kv.2 acc.1 with
      | .error e => .error e
      | .ok (c, m) => catLoop dom rest (c, acc.2 ++ m)
    else catLoop dom rest acc

/-- The sanity check and final log of `_atualizar_filtros_do_json` (never
changes the context, only the change list). -/
def finalizeAtualizacao (contextoAtual : Ctx) (st : Ctx × List String) :
    Ctx × List String :=
  let mud4 :=
    if !contextoAtual.isEmpty && st.1.length < contextoAtual.length then
      let perdidos := (dkeys contextoAtual).filter (fun k => !dmem st.1 k)
      if !perdidos.isEmpty then
        st.2 ++ ["ALERTA: " ++ toString perdidos.length
          ++ " filtros foram perdidos: " ++ pySetStr perdidos]
      else st.2
    else st.2
  (st.1, mud4 ++ ["Contexto final: " ++ toString st.1.length ++ " filtros ativos"])

/-- `JSONFilterManager._atualizar_filtros_do_json`.  The `Except` error is
a Python exception escaping this method (caught by
`processar_json_response`).  The clear-filters branch also resets the
manager's internal `filtros_persistentes` snapshot, an instance attribute
no embedded claim consults. -/
def atualizarFiltrosDoJson (dom : Domain) (jsonFiltros : Json)
    (contextoAtual : Ctx) : Except String (Ctx × List String) :=
  let mud0 := ["Contexto inicial: " ++ toString contextoAtual.length ++ " filtros ativos"]
  match jGetM jsonFiltros "clear_all_filters" with
  | .error e => .error e
  | .ok clearA =>
    if truthyOpt clearA then .ok ([], ["Todos os filtros foram removidos"])
    else
      match jGetM jsonFiltros "limpar_filtros" with
      | .error e => .error e
      | .ok limpar =>
        if truthyOpt limpar then .ok ([], ["Todos os filtros foram removidos"])
        else
          match jItems jsonFiltros with
          | .error e => .error e
          | .ok items =>
            match totalLoop items 0 with
            | .error e => .error e
            | .ok total =>
              let mud1 := mud0 ++ ["JSON extraído: " ++ toString total
                ++ " campos em " ++ toString items.length ++ " categorias"]
              match catLoop dom items (contextoAtual, mud1) with
              | .error e => .error e
              | .ok state2 =>
                match jGetM jsonFiltros "remover_filtros" with
                | .error e => .error e
                | .ok remover =>
                  match remover with
                  | some r =>
                    if jTruthy r then
                      match processarRemocoes r state2.1 with
                      | .error e => .error e
                      | .ok (c, m) =>
                        .ok (finalizeAtualizacao contextoAtual (c, state2.2 ++ m))
                    else .ok (finalizeAtualizacao contextoAtual state2)
                  | none => .ok (finalizeAtualizacao contextoAtual state2)

/-! #### `_extrair_json_da_response` and the text-extraction fallback -/

/-- Chained concatenation of regex pieces. -/
def rxSeq (l : List Rx) : Rx := l.foldr Rx.cat Rx.eps

/-- The backslash character. -/
def bsl : Char := '\\'

/-- Python `s.replace("\\", "")`. -/
def removeAllBackslashes (s : String) : String := String.mk (s.data.filter (· ≠ bsl))

/-- Python `re.sub(r"\s*json\s*$", "", s)` on an already-stripped string. -/
def removeJsonSuffix (s : String) : String :=
  if strEnds s "json" then
    String.mk (((s.dropRight 4).data.reverse.dropWhile isSpaceCh).reverse)
  else s

/-- Strategy 1's block pattern: three backticks, `json` (case-insensitive),
optional whitespace/newline, a lazy body capture, three backticks. -/
def jsonBlockRx : Rx :=
  rxSeq [Rx.lit bquo, Rx.lit bquo, Rx.lit bquo, litsCI "json",
    Rx.star rxs true, Rx.opt (Rx.lit '\n'),
    Rx.grp (Rx.star (.cls (.anyc true)) false),
    Rx.opt (Rx.lit '\n'), Rx.lit bquo, Rx.lit bquo, Rx.lit bquo]

/-- The `(?:periodo|regiao|cliente|produto|representante)` alternation. -/
def kwAlt : Rx := altList (fiveCats.map lits)

/-- Strategy 2's pattern (two alternated brace-delimited shapes). -/
def strategy2Rx : Rx :=
  let noBrace : Rx := .cls (.neg [.ch lbr, .ch rbr])
  let quoted : Rx := rxSeq [Rx.lit '"', Rx.star (.cls (.neg [.ch '"'])) true, Rx.lit '"']
  let piece : Rx := .alt noBrace quoted
  Rx.alt
    (rxSeq [Rx.lit lbr, Rx.star noBrace false, Rx.lit '"', kwAlt, Rx.lit '"',
      Rx.star noBrace false, Rx.lit rbr])
    (rxSeq [Rx.lit lbr, Rx.star piece false, Rx.lit '"', kwAlt, Rx.lit '"',
      Rx.star piece false, Rx.lit rbr])

/-- Strategy 3's multi-line pattern (`[\s\S]*?` pieces). -/
def strategy3Rx : Rx :=
  rxSeq [Rx.lit lbr, Rx.star (.cls (.anyc true)) false, Rx.lit '"', kwAlt,
    Rx.lit '"', Rx.star (.cls (.anyc true)) false, Rx.lit rbr]

/-- Strategy 4's three end-anchored patterns (compiled with
`re.MULTILINE | re.DOTALL`). -/
def strategy4Rxs : List Rx :=
  let noBrace : Rx := .cls (.neg [.ch lbr, .ch rbr])
  let anyAll : Rx := .cls (.anyc true)
  let tail : Rx := Rx.opt (rxSeq [Rx.star rxs true, lits "json", Rx.star rxs true])
  [rxSeq [Rx.lit lbr, Rx.star noBrace false, Rx.lit '"', lits "periodo", Rx.lit '"',
     Rx.star noBrace false, Rx.lit rbr, tail, Rx.eost true],
   rxSeq [Rx.lit lbr, Rx.star noBrace false, lits "periodo",
     Rx.star noBrace false, Rx.lit rbr, tail, Rx.eost true],
   rxSeq [Rx.lit lbr, Rx.star anyAll false, lits "periodo",
     Rx.star anyAll false, Rx.lit rbr, tail, Rx.eost true]]

/-- Try `json.loads` on each candidate in order, returning the first
successful decode (strategy 2/3 inner loops). -/
def firstLoads : List String → Option Json
  | [] => none
  | s :: rest =>
    match jsonLoads s with
    | some j => some j
    | none => firstLoads rest

/-- Strategy 4's per-match cleaning and two-step decode. -/
def strategy4Clean (m : String) : Option Json :=
  let c0 := removeJsonSuffix (strip m)
  let c1 := pyReplace c0 (String.mk [bsl, bsl, bsl, '"']) (String.mk [bsl, '"'])
  let c2 := pyReplace c1 (String.mk [bsl, bsl, '"']) "\""
  let c3 := pyReplace c2 (String.mk [bsl, '"']) "\""
  match jsonLoads c3 with
  | some j => some j
  | none => jsonLoads (removeAllBackslashes c3)

def firstStrategy4 : List String → Option Json
  | [] => none
  | m :: rest =>
    match strategy4Clean m with
    | some j => some j
    | none => firstStrategy4 rest

/-- Portuguese month names with their numbers (used by the spec-modelled
temporal normalizer). -/
def monthNames : List (String × Nat) :=
  [("janeiro", 1), ("fevereiro", 2), ("março", 3), ("abril", 4), ("maio", 5),
   ("junho", 6), ("julho", 7), ("agosto", 8), ("setembro", 9), ("outubro", 10),
   ("novembro", 11), ("dezembro", 12)]

/-- Modelled from the spec: `src.text_normalizer.normalizer.
get_structured_temporal_data` is not under `src/`.  Per spec §4.3/§3 it
recognises a named month with a year and returns the granularity-preserving
`{"periodo": {"mes", "ano"}}` structure (month ranges would yield
`{inicio, fim}`; the claims below never depend on this function's output). -/
def getStructuredTemporalData (text : String) : Option Json :=
  let tl := lowerStr text
  let hit := monthNames.filterMap (fun mn =>
    let r := rxSeq [lits mn.1, Rx.pls rxs, lits "de", Rx.pls rxs,
      Rx.grp (rxSeq [lits "20", rxd, rxd])]
    match rsearch r tl with
    | some (caps, _) => (digitsToNat (caps.headD "")).map (fun y => (mn.2, y))
    | none => none)
  match hit with
  | (m, y) :: _ =>
    some (.obj [("periodo", .obj [("mes", .num m), ("ano", .num y)])])
  | [] => none

/-- `JSONFilterManager._is_plausible_year`. -/
def isPlausibleYear (s : String) : Bool :=
  match digitsToNat s with
  | some y => 1990 ≤ y && y ≤ 2030
  | none => false

/-- `JSONFilterManager._is_plausible_date`. -/
def isPlausibleDate (s : String) : Bool :=
  if s.data.contains '-' then
    match splitOnCh s '-' with
    | [ys, ms, ds] =>
      match digitsToNat ys, digitsToNat ms, digitsToNat ds with
      | some y, some m, some d =>
        1990 ≤ y && y ≤ 2030 && 1 ≤ m && m ≤ 12 && 1 ≤ d && d ≤ 31
      | _, _, _ => false
    | _ => false
  else if s.data.contains '/' then
    match splitOnCh s '/' with
    | [ds, ms, ys] =>
      match digitsToNat ys, digitsToNat ms, digitsToNat ds with
      | some y, some m, some d =>
        1990 ≤ y && y ≤ 2030 && 1 ≤ m && m ≤ 12 && 1 ≤ d && d ≤ 31
      | _, _, _ => false
    | _ => false
  else isPlausibleYear s

/-- First pattern whose first `findall` hit passes the validator
(a failing hit moves on to the next pattern, as in the Python loops). -/
def findFirstValid (pats : List Rx) (valid : String → Bool) (s : String) :
    Option String :=
  match pats with
  | [] => none
  | p :: rest =>
    match (findall p s).head? with
    | some (caps, _) =>
      let m := caps.headD ""
      if valid m then some m else findFirstValid rest valid s
    | none => findFirstValid rest valid s

/-- `JSONFilterManager._apply_basic_temporal_parsing`: the `Data` value the
method stores into `filtros["periodo"]`, if any. -/
def aplicarBasicTemporalParsing (textLower : String) : Option String :=
  let datePatterns : List Rx :=
    [Rx.grp (rxSeq [rxd, rxd, rxd, rxd, Rx.lit '-', rxd, rxd, Rx.lit '-', rxd, rxd]),
     Rx.grp (rxSeq [rxd, rxd, Rx.lit '/', rxd, rxd, Rx.lit '/', rxd, rxd, rxd, rxd])]
  let yearPatterns : List Rx :=
    [rxSeq [Rx.wb, Rx.alt (lits "ano") (lits "year"), Rx.pls rxs,
       Rx.grp (rxSeq [rxd, rxd, rxd, rxd]), Rx.wb],
     rxSeq [Rx.wb, lits "em", Rx.pls rxs, Rx.grp (rxSeq [rxd, rxd, rxd, rxd]), Rx.wb],
     rxSeq [Rx.wb, Rx.grp (rxSeq [rxd, rxd, rxd, rxd]), Rx.star rxs true,
       Rx.alt (lits "ano") (lits "year"), Rx.wb],
     rxSeq [Rx.wb, lits "de", Rx.pls rxs, Rx.grp (rxSeq [rxd, rxd, rxd, rxd]), Rx.wb],
     rxSeq [Rx.wb, Rx.grp (rxSeq [rxd, rxd, rxd, rxd]), Rx.star rxs true,
       .cls (.pos [.ch '-', .ch '/']), Rx.star rxs true, rxd, Rx.opt rxd, Rx.wb]]
  match findFirstValid datePatterns isPlausibleDate textLower with
  | some m => some m
  | none => findFirstValid yearPatterns isPlausibleYear textLower

/-- Membership of a string among a domain column's (JSON) values. -/
def jvalsContain (vals : List Json) (s : String) : Bool :=
  vals.any (Json.beq (.str s))

/-- `JSONFilterManager._extrair_filtros_por_texto`.  Dataset-derived domain
values are treated as strings (the dataset loader produces text columns). -/
def extrairFiltrosPorTexto (dom : Domain) (responseText : String) : Json :=
  let textLower := lowerStr responseText
  let periodoVal : Json :=
    match getStructuredTemporalData responseText with
    | some structured =>
      match structured with
      | .obj items =>
        match dget items "periodo" with
        | some p => p
        | none => .obj []
      | _ => .obj []
    | none =>
      match aplicarBasicTemporalParsing textLower with
      | some v => .obj [("Data", .str v)]
      | none => .obj []
  let ufVal : Json :=
    let ufRx := rxSeq [Rx.wb,
      Rx.grp (Rx.cat (.cls (.pos [.ucaseAZ])) (.cls (.pos [.ucaseAZ]))), Rx.wb]
    let ufMatches := (findall ufRx responseText).map (fun p => p.1.headD "")
    match domGet dom "UF_Cliente" with
    | some vals =>
      let validUfs := ufMatches.filter (jvalsContain vals)
      if !validUfs.isEmpty then .arr (validUfs.map .str) else .null
    | none => .null
  let munVal : Json :=
    match domGet dom "Municipio_Cliente" with
    | some vals =>
      match vals.find? (fun cv =>
        let base := lowerStr (pyStr cv)
        let pats := [base, pyReplace base " " "",
          pyReplace (pyReplace (pyReplace base "ã" "a") "ç" "c") "õ" "o",
          pyReplace (pyReplace base "são" "sao") "joão" "joao"]
        pats.any (fun pat =>
          pat = strip textLower
          || hasSub (" " ++ textLower ++ " ") (" " ++ pat ++ " ")
          || strStarts textLower (pat ++ " ")
          || strEnds textLower (" " ++ pat)
          || hasSub textLower ("/" ++ pat ++ "/")
          || hasSub textLower (String.mk (squo :: pat.data) ++ String.mk [squo])
          || hasSub textLower ("\"" ++ pat ++ "\""))) with
      | some cv => .arr [cv]
      | none => .null
    | none => .null
  let segVal : Json :=
    let segPatterns : List (String × List String) :=
      [("atacado", ["ATACADO"]), ("varejo", ["VAREJO"]),
       ("industria", ["INDUSTRIA", "INDUSTRIAL"]),
       ("construcao", ["CONSTRUCAO", "CONSTRUÇÃO"]),
       ("agropecuario", ["AGROPECUARIO", "AGROPECUÁRIA"])]
    segPatterns.foldl (fun acc pk =>
      if hasSub textLower pk.1 then
        match domGet dom "Cod_Segmento_Cliente" with
        | some vals =>
          match pk.2.find? (jvalsContain vals) with
          | some seg => .arr [.str seg]
          | none => acc
        | none => acc
      else acc) .null
  let desLinhaVal : Json :=
    let produtoKeywords := ["tubos", "conexoes", "soldavel", "esgoto", "pvc"]
    produtoKeywords.foldl (fun acc kw =>
      if hasSub textLower kw then
        match acc with
        | .null =>
          match domGet dom "Des_Linha_Produto" with
          | some vals =>
            let encontrados := vals.filter (fun p =>
              hasSub (upperStr (pyStr p)) (upperStr kw))
            if !encontrados.isEmpty then .arr (encontrados.take 3) else .null
          | none => .null
        | found => found
      else acc) .null
  .obj [("periodo", periodoVal),
    ("regiao", .obj [("UF_Cliente", ufVal), ("Municipio_Cliente", munVal)]),
    ("cliente", .obj [("Cod_Cliente", .null), ("Cod_Segmento_Cliente", segVal)]),
    ("produto", .obj [("Cod_Familia_Produto", .null), ("Cod_Grupo_Produto", .null),
      ("Cod_Linha_Produto", .null), ("Des_Linha_Produto", desLinhaVal)]),
    ("representante", .obj [("Cod_Vendedor", .null), ("Cod_Regiao_Vendedor", .null)])]

/-- `JSONFilterManager._extrair_json_da_response` (five strategies tried in
order; `none` means Python's `return None`). -/
def extrairJsonDaResponse (dom : Domain) (responseText : String) : Option Json :=
  let s1 : Option Json :=
    match rsearch jsonBlockRx responseText with
    | some (caps, _) =>
      let c0 := strip (caps.headD "")
      let c1 := pyReplace c0 (String.mk [bsl, '"']) "\""
      match jsonLoads c1 with
      | some j => some j
      | none => jsonLoads (removeAllBackslashes c1)
    | none => none
  match s1 with
  | some j => some j
  | none =>
    match firstLoads ((findall strategy2Rx responseText).map Prod.snd) with
    | some j => some j
    | none =>
      match firstLoads ((findall strategy3Rx responseText).map Prod.snd) with
      | some j => some j
      | none =>
        match firstStrategy4 (strategy4Rxs.foldl (fun acc r =>
            acc ++ (findall r responseText).map Prod.snd) []) with
        | some j => some j
        | none =>
          if fiveCats.any (fun kw => hasSub (lowerStr responseText) kw) then
            some (extrairFiltrosPorTexto dom responseText)
          else none

/-- The body of `JSONFilterManager.processar_json_response`'s `try` block;
an `Except.error` is an exception reaching the handler. -/
def innerProcessarJson (dom : Domain) (responseText : String)
    (contextoAtual : Ctx) : Except String (Ctx × List String) :=
  match extrairJsonDaResponse dom responseText with
  | none => .ok (contextoAtual, [])
  | some j =>
    if !jTruthy j then .ok (contextoAtual, [])
    else atualizarFiltrosDoJson dom j contextoAtual

/-- `JSONFilterManager.processar_json_response` (the `try`/`except` wrapper:
on any exception it returns the prior context with the error logged). -/
def processarJsonResponse (dom : Domain) (responseText : String)
    (contextoAtual : Ctx) : Ctx × List String :=
  match innerProcessarJson dom responseText contextoAtual with
  | .ok r => r
  | .error e => (contextoAtual, ["Erro ao processar JSON: " ++ e])

/-- One iteration of `aplicar_filtros_desabilitados`'s loop over the
context's items. -/
def aplicarStep (contexto : Ctx) (filtrosDesabilitados : List String)
    (acc : Ctx) (kv : String × Json) : Ctx :=
  let campo := kv.1
  let valor := kv.2
  let filterId := campo ++ ":" ++ pyStr valor
  if (campo = "Data_>=" || campo = "Data_<")
      && dmem contexto "Data_>=" && dmem contexto "Data_<" then
    match dget contexto "Data_>=", dget contexto "Data_<" with
    | some startDate, some endDate =>
      if jTruthy startDate && jTruthy endDate then
        let rangeId := "Data_range:" ++ pyStr startDate ++ "_" ++ pyStr endDate
        if !filtrosDesabilitados.contains rangeId then dset acc campo valor else acc
      else acc
    | _, _ => acc
  else if !filtrosDesabilitados.contains filterId then dset acc campo valor
  else acc

/-- `JSONFilterManager.aplicar_filtros_desabilitados`. -/
def aplicarFiltrosDesabilitados (contexto : Ctx) (filtrosDesabilitados : List String) :
    Ctx :=
  if filtrosDesabilitados.isEmpty then contexto
  else contexto.foldl (aplicarStep contexto filtrosDesabilitados) []

/-- The effective keep decision of `aplicarStep` for one context entry. -/
def aplicarKeep (contexto : Ctx) (filtrosDesabilitados : List String)
    (kv : String × Json) : Bool :=
  if (kv.1 = "Data_>=" || kv.1 = "Data_<")
      && dmem contexto "Data_>=" && dmem contexto "Data_<" then
    match dget contexto "Data_>=", dget contexto "Data_<" with
    | some startDate, some endDate =>
      jTruthy startDate && jTruthy endDate
        && !filtrosDesabilitados.contains
            ("Data_range:" ++ pyStr startDate ++ "_" ++ pyStr endDate)
    | _, _ => false
  else !filtrosDesabilitados.contains (kv.1 ++ ":" ++ pyStr kv.2)

/-! ### `FilterConflictResolver`
(src/src/filters/legacy/filter_conflict_resolver.py) -/

/-- `self.conflict_groups` (insertion order). -/
def conflictGroups : List (String × List String) :=
  [("temporal", ["Data", "Data_>=", "Data_<", "Data_<=", "Data_>",
     "ano", "mes", "periodo", "Data_Inicio", "Data_Fim"]),
   ("geographic", ["UF_Cliente", "Municipio_Cliente", "cidade", "estado",
     "municipio", "uf", "regiao"]),
   ("client", ["Cod_Cliente", "Cliente", "cliente",
     "Cod_Segmento_Cliente", "segmento"]),
   ("product", ["Cod_Familia_Produto", "Cod_Grupo_Produto", "Cod_Linha_Produto",
     "Des_Linha_Produto", "Produto", "produto", "linha"]),
   ("representative", ["Cod_Vendedor", "Cod_Regiao_Vendedor", "vendedor",
     "representante", "regiao_vendedor"])]

/-- `self.field_priorities` with the `.get(field, 5)` default. -/
def fieldPriority (field : String) : Nat :=
  let table : List (String × Nat) :=
    [("Data_>=", 10), ("Data_<", 10), ("Data_<=", 10),
     ("Data", 8), ("periodo", 7), ("ano", 5), ("mes", 6),
     ("UF_Cliente", 10), ("Municipio_Cliente", 9),
     ("estado", 8), ("cidade", 8), ("uf", 7), ("municipio", 7),
     ("Cod_Cliente", 10), ("Cod_Segmento_Cliente", 9),
     ("Cliente", 8), ("cliente", 7),
     ("Cod_Linha_Produto", 10), ("Des_Linha_Produto", 9),
     ("Cod_Familia_Produto", 8), ("Cod_Grupo_Produto", 8),
     ("Produto", 7), ("produto", 6),
     ("Cod_Vendedor", 10), ("Cod_Regiao_Vendedor", 9),
     ("vendedor", 8), ("representante", 7)]
  match table.find? (fun kv => kv.1 = field) with
  | some kv => kv.2
  | none => 5

/-- `{f: v for f, v in d.items() if f in fields}`. -/
def filterToGroup (d : Ctx) (fields : List String) : Ctx :=
  d.filter (fun kv => fields.contains kv.1)

/-- `FilterConflictResolver._are_semantically_conflicting`. -/
def areSemanticallyConflicting (field1 field2 : String)
    (groupFields : List String) : Bool :=
  let temporalExclusives : List (List String) :=
    [["Data_>=", "ano"], ["Data_<", "ano"], ["Data", "periodo"],
     ["mes", "Data_>="], ["mes", "Data_<"]]
  let geographicExclusives : List (List String) :=
    [["UF_Cliente", "Municipio_Cliente"], ["estado", "cidade"]]
  (temporalExclusives ++ geographicExclusives).any (fun pair =>
    pair.contains field1 && pair.contains field2 && field1 ≠ field2
      && pair.all (fun f => groupFields.contains f))

/-- `FilterConflictResolver._detect_group_conflicts`. -/
def detectGroupConflicts (newFilters existingContext : Ctx)
    (fields : List String) : List String :=
  let newIn := filterToGroup newFilters fields
  let existIn := filterToGroup existingContext fields
  if newIn.isEmpty || existIn.isEmpty then []
  else
    let direct := newIn.foldl (fun acc kv =>
      match dget existIn kv.1 with
      | some ev =>
        if !Json.beq kv.2 ev then
          acc ++ [kv.1 ++ ": " ++ pyRepr (.str (pyStr ev)) ++ " vs "
            ++ pyRepr (.str (pyStr kv.2))]
        else acc
      | none => acc) []
    let semantic := newIn.foldl (fun acc nf =>
      existIn.foldl (fun acc2 ef =>
        if nf.1 ≠ ef.1 && areSemanticallyConflicting nf.1 ef.1 fields then
          acc2 ++ ["Conflito semântico: " ++ ef.1 ++ " vs " ++ nf.1]
        else acc2) acc) direct
    semantic

/-- `FilterConflictResolver._resolve_by_priority`. -/
def resolveByPriority (newFields existFields : Ctx) : Ctx :=
  newFields.foldl (fun resolved kv =>
    let (field, value) := kv
    let newPriority := fieldPriority field
    let state := existFields.foldl (fun (st : Ctx × Bool) ekv =>
      let existingPriority := fieldPriority ekv.1
      if newPriority > existingPriority then
        (dset (ddel st.1 ekv.1) field value, true)
      else if newPriority < existingPriority then
        (st.1, true)
      else st) (resolved, false)
    if !state.2 then dset state.1 field value else state.1) existFields

/-- `FilterConflictResolver._resolve_temporal_conflicts`. -/
def resolveTemporalConflicts (newFields existFields : Ctx) : Ctx :=
  if ["Data_>=", "Data_<", "Data_<="].any (fun f => dmem newFields f) then
    newFields
  else if ["Data_>=", "Data_<", "Data_<="].any (fun f => dmem existFields f) then
    existFields
  else if dmem newFields "Data" then
    newFields
  else
    resolveByPriority newFields existFields

/-- `FilterConflictResolver._resolve_geographic_conflicts`. -/
def resolveGeographicConflicts (newFields existFields : Ctx) : Ctx :=
  if dmem newFields "Municipio_Cliente" || dmem newFields "cidade" then
    newFields
  else if (dmem newFields "UF_Cliente" || dmem newFields "estado")
      && !(["Municipio_Cliente", "cidade"].any (fun f => dmem existFields f)) then
    dupdate existFields newFields
  else
    resolveByPriority newFields existFields

/-- `FilterConflictResolver._smart_conflict_resolution`. -/
def smartConflictResolution (newFilters existingContext : Ctx)
    (fields : List String) (groupName : String) : Ctx :=
  let newIn := filterToGroup newFilters fields
  let existIn := filterToGroup existingContext fields
  if groupName = "temporal" then resolveTemporalConflicts newIn existIn
  else if groupName = "geographic" then resolveGeographicConflicts newIn existIn
  else resolveByPriority newIn existIn

/-- `FilterConflictResolver._replace_resolution` (note: falls back to the
whole existing context when the group has no new fields). -/
def replaceResolution (newFilters existingContext : Ctx)
    (fields : List String) : Ctx :=
  let newIn := filterToGroup newFilters fields
  if !newIn.isEmpty then newIn else existingContext

/-- `FilterConflictResolver._merge_resolution`. -/
def mergeResolution (newFilters existingContext : Ctx)
    (fields : List String) : Ctx :=
  let newIn := filterToGroup newFilters fields
  newIn.foldl (fun resolved kv =>
    if dmem resolved kv.1 then resolved else dset resolved kv.1 kv.2)
    (filterToGroup existingContext fields)

/-- `FilterConflictResolver._keep_existing_resolution`. -/
def keepExistingResolution (_newFilters existingContext : Ctx)
    (fields : List String) : Ctx :=
  filterToGroup existingContext fields

/-- `FilterConflictResolver._get_ungrouped_fields`. -/
def getUngroupedFields (filters : Ctx) : Ctx :=
  let allGrouped := conflictGroups.foldl (fun acc g => acc ++ g.2) []
  filters.filter (fun kv => !allGrouped.contains kv.1 && !strStarts kv.1 "_")

/-- `FilterConflictResolver.resolve_conflicts`. -/
def resolveConflicts (newFilters existingContext : Ctx)
    (resolutionStrategy : String) : Ctx × List String :=
  if newFilters.isEmpty then (existingContext, [])
  else if truthyOpt (dget newFilters "clear_all_filters") then
    ([], ["Todos os filtros foram limpos"])
  else
    let afterGroups := conflictGroups.foldl
      (fun (st : Ctx × List String) grp =>
        let (groupName, fields) := grp
        let groupConflicts := detectGroupConflicts newFilters existingContext fields
        if !groupConflicts.isEmpty then
          let resolvedFilters :=
            if resolutionStrategy = "smart" then
              smartConflictResolution newFilters existingContext fields groupName
            else if resolutionStrategy = "replace" then
              replaceResolution newFilters existingContext fields
            else if resolutionStrategy = "merge" then
              mergeResolution newFilters existingContext fields
            else if resolutionStrategy = "keep_existing" then
              keepExistingResolution newFilters existingContext fields
            else
              smartConflictResolution newFilters existingContext fields groupName
          (dupdate st.1 resolvedFilters,
           st.2 ++ groupConflicts.map (fun c => "Conflito em " ++ groupName ++ ": " ++ c))
        else
          (fields.foldl (fun acc field =>
            match dget newFilters field with
            | some v => dset acc field v
            | none => acc) st.1, st.2))
      (existingContext, [])
    ((getUngroupedFields newFilters).foldl (fun acc kv => dset acc kv.1 kv.2)
      afterGroups.1, afterGroups.2)

/-! ### `IntelligentFilterDetector`
(src/src/filters/legacy/intelligent_filter_detector.py) -/

/-- The action attached to a temporal pattern (the dict's values: a
two-digit month string, or a relative-period tag). -/
inductive TAct where
  | monthNum (s : String)
  | lastMonth
  | lastNMonths
  | lastYear
  | lastNYears
  | thisMonth
  | thisYear
deriving Repr, DecidableEq

/-- `últimos?\s+(\d+)\s+meses?`. -/
def lastNMonthsRx : Rx :=
  rxSeq [lits "último", Rx.opt (Rx.lit 's'), Rx.pls rxs, Rx.grp (Rx.pls rxd),
    Rx.pls rxs, lits "mese", Rx.opt (Rx.lit 's')]

/-- `últimos?\s+(\d+)\s+anos?`. -/
def lastNYearsRx : Rx :=
  rxSeq [lits "último", Rx.opt (Rx.lit 's'), Rx.pls rxs, Rx.grp (Rx.pls rxd),
    Rx.pls rxs, lits "ano", Rx.opt (Rx.lit 's')]

/-- `self.temporal_patterns` in insertion order. -/
def temporalPatterns : List (Rx × TAct) :=
  [(Rx.alt (lits "janeiro") (lits "jan"), .monthNum "01"),
   (Rx.alt (lits "fevereiro") (lits "fev"), .monthNum "02"),
   (Rx.alt (lits "março") (lits "mar"), .monthNum "03"),
   (Rx.alt (lits "abril") (lits "abr"), .monthNum "04"),
   (Rx.alt (lits "maio") (lits "mai"), .monthNum "05"),
   (Rx.alt (lits "junho") (lits "jun"), .monthNum "06"),
   (Rx.alt (lits "julho") (lits "jul"), .monthNum "07"),
   (Rx.alt (lits "agosto") (lits "ago"), .monthNum "08"),
   (Rx.alt (lits "setembro") (lits "set"), .monthNum "09"),
   (Rx.alt (lits "outubro") (lits "out"), .monthNum "10"),
   (Rx.alt (lits "novembro") (lits "nov"), .monthNum "11"),
   (Rx.alt (lits "dezembro") (lits "dez"), .monthNum "12"),
   (altList [rxSeq [lits "último", Rx.pls rxs, lits "mês"],
      rxSeq [lits "mês", Rx.pls rxs, lits "passado"],
      rxSeq [lits "mês", Rx.pls rxs, lits "anterior"]], .lastMonth),
   (lastNMonthsRx, .lastNMonths),
   (altList [rxSeq [lits "último", Rx.pls rxs, lits "ano"],
      rxSeq [lits "ano", Rx.pls rxs, lits "passado"]], .lastYear),
   (lastNYearsRx, .lastNYears),
   (altList [rxSeq [lits "este", Rx.pls rxs, lits "mês"],
      rxSeq [lits "mês", Rx.pls rxs, lits "atual"]], .thisMonth),
   (altList [rxSeq [lits "este", Rx.pls rxs, lits "ano"],
      rxSeq [lits "ano", Rx.pls rxs, lits "atual"]], .thisYear)]

/-- `\b(20\d{2})\b`. -/
def yearTokenRx : Rx :=
  rxSeq [Rx.wb, Rx.grp (rxSeq [lits "20", rxd, rxd]), Rx.wb]

/-- `(\w+)\s+de\s+(20\d{2})`. -/
def monthYearRx : Rx :=
  rxSeq [Rx.grp (Rx.pls rxw), Rx.pls rxs, lits "de", Rx.pls rxs,
    Rx.grp (rxSeq [lits "20", rxd, rxd])]

/-- `IntelligentFilterDetector._detect_temporal_filters` (the caller passes
lowercased text; a missing `max_date` defaults to the wall clock, which the
embedding takes as an explicit argument of `detect_filters_from_text`). -/
def detectTemporalFilters (text : String) (maxDate : PDate) : Ctx :=
  let f0 : Ctx := []
  let f1 :=
    match (findall yearTokenRx text).head? with
    | some (caps, _) =>
      let year := caps.headD ""
      match digitsToNat year with
      | some y =>
        dset (dset f0 "Data_>=" (.str (year ++ "-01-01")))
          "Data_<" (.str (toString (y + 1) ++ "-01-01"))
      | none => f0
    | none => f0
  let f2 :=
    match rsearch monthYearRx text with
    | some (caps, _) =>
      let monthName := lowerStr (caps.headD "")
      let year := caps.getD 1 ""
      match temporalPatterns.find? (fun p => rmatches p.1 monthName) with
      | some (_, .monthNum num) =>
        match digitsToNat num, digitsToNat year with
        | some m, some y =>
          let g1 := dset f1 "Data_>=" (.str (year ++ "-" ++ fmt2 m ++ "-01"))
          let nextMonth := m + 1
          if nextMonth > 12 then
            dset g1 "Data_<" (.str (toString (y + 1) ++ "-01-01"))
          else
            dset g1 "Data_<" (.str (year ++ "-" ++ fmt2 nextMonth ++ "-01"))
        | _, _ => f1
      | _ => f1
    | none => f1
  match temporalPatterns.find? (fun p => rmatches p.1 text) with
  | some (_, act) =>
    match act with
    | .monthNum _ => f2
    | .lastMonth =>
      let lastMonthEnd := subDays (firstOfMonth maxDate) 1
      let startDate := firstOfMonth lastMonthEnd
      dset (dset f2 "Data_>=" (.str (fmtDate startDate)))
        "Data_<" (.str (fmtDate (firstOfMonth maxDate)))
    | .thisMonth =>
      dset f2 "Data_>=" (.str (fmtDate (firstOfMonth maxDate)))
    | .lastYear =>
      dset (dset f2 "Data_>=" (.str (toString (maxDate.year - 1) ++ "-01-01")))
        "Data_<" (.str (toString maxDate.year ++ "-01-01"))
    | .thisYear =>
      dset f2 "Data_>=" (.str (toString maxDate.year ++ "-01-01"))
    | .lastNMonths =>
      match rsearch lastNMonthsRx text with
      | some (caps, _) =>
        match digitsToNat (caps.headD "") with
        | some n => dset f2 "Data_>=" (.str (fmtDate (subDays maxDate (30 * n))))
        | none => f2
      | none => f2
    | .lastNYears =>
      match rsearch lastNYearsRx text with
      | some (caps, _) =>
        match digitsToNat (caps.headD "") with
        | some n => dset f2 "Data_>=" (.str (toString (maxDate.year - n) ++ "-01-01"))
        | none => f2
      | none => f2
  | none => f2

/-- The value side of `self.geographic_patterns`. -/
inductive GeoVal where
  | uf (state : String)
  | cidade
deriving Repr, DecidableEq

/-- A `x\.?y\.?` state-abbreviation pattern. -/
def dottedAbbr (a b : Char) : Rx :=
  rxSeq [Rx.lit a, Rx.opt (Rx.lit '.'), Rx.lit b, Rx.opt (Rx.lit '.')]

/-- `self.geographic_patterns` in insertion order (searched on lowercased
text; the `(í|i)` alternation in the Paraíba pattern is inlined). -/
def geographicPatterns : List (Rx × GeoVal) :=
  [(altList [rxSeq [lits "são", Rx.pls rxs, lits "paulo"], lits "sp",
      dottedAbbr 's' 'p'], .uf "SP"),
   (altList [rxSeq [lits "rio", Rx.pls rxs, lits "de", Rx.pls rxs, lits "janeiro"],
      lits "rj", dottedAbbr 'r' 'j'], .uf "RJ"),
   (altList [rxSeq [lits "minas", Rx.pls rxs, lits "gerais"], lits "mg",
      dottedAbbr 'm' 'g'], .uf "MG"),
   (altList [rxSeq [lits "para", Rx.alt (Rx.lit 'í') (Rx.lit 'i'), lits "ba"],
      lits "pb", dottedAbbr 'p' 'b'], .uf "PB"),
   (altList [lits "pernambuco", lits "pe", dottedAbbr 'p' 'e'], .uf "PE"),
   (altList [lits "bahia", lits "ba", dottedAbbr 'b' 'a'], .uf "BA"),
   (altList [lits "brasília", lits "df", dottedAbbr 'd' 'f'], .uf "DF"),
   (rxSeq [lits "cidade", Rx.pls rxs, lits "de", Rx.pls rxs,
      Rx.grp (Rx.pls (.cls (.neg [.ch ',', .spc])))], .cidade),
   (rxSeq [lits "município", Rx.pls rxs, lits "de", Rx.pls rxs,
      Rx.grp (Rx.pls (.cls (.neg [.ch ',', .spc])))], .cidade)]

/-- `IntelligentFilterDetector._detect_geographic_filters`. -/
def detectGeographicFilters (text : String) : Ctx :=
  match geographicPatterns.findSome? (fun p =>
      match rsearch p.1 text with
      | some (caps, _) => some (p.2, caps)
      | none => none) with
  | some (GeoVal.cidade, caps) =>
    match caps.head? with
    | some cityName =>
      if cityName ≠ "" then [("Municipio_Cliente", .str (pyTitle cityName))] else []
    | none => []
  | some (GeoVal.uf state, _) => [("UF_Cliente", .str state)]
  | none => []

/-- `self.exclusion_patterns` in insertion order. -/
def exclusionPatterns : List (Rx × String) :=
  [(altList [lits "excluir", lits "exceto", lits "sem",
      rxSeq [lits "não", Rx.pls rxs, lits "incluir"], lits "remover"], "exclude"),
   (altList [lits "apenas", lits "somente", lits "só",
      rxSeq [lits "incluir", Rx.pls rxs, lits "apenas"]], "include_only"),
   (rxSeq [lits "todo", Rx.opt (Rx.lit 's'), Rx.pls rxs, lits "exceto"], "all_except")]

/-- `IntelligentFilterDetector._detect_exclusion_patterns`. -/
def detectExclusionPatterns (text : String) : Option String :=
  (exclusionPatterns.find? (fun p => rmatches p.1 text)).map Prod.snd

/-- `self.clear_patterns`. -/
def clearPatterns : List Rx :=
  [rxSeq [lits "sem", Rx.pls rxs, lits "filtro", Rx.opt (Rx.lit 's')],
   rxSeq [lits "remove", Rx.opt (Rx.lit 'r'), Rx.pls rxs,
     Rx.opt (Rx.grp (rxSeq [lits "todo", Rx.opt (Rx.lit 's'), Rx.pls rxs])),
     lits "filtro", Rx.opt (Rx.lit 's')],
   rxSeq [lits "limpar", Rx.pls rxs, lits "filtro", Rx.opt (Rx.lit 's')],
   rxSeq [lits "sem", Rx.pls rxs, lits "restriçõe", Rx.opt (Rx.lit 's')],
   rxSeq [lits "consulta", Rx.pls rxs, lits "geral"],
   rxSeq [lits "todo", Rx.opt (Rx.lit 's'), Rx.pls rxs, lits "o", Rx.opt (Rx.lit 's'),
     Rx.pls rxs, lits "dado", Rx.opt (Rx.lit 's')]]

/-- `IntelligentFilterDetector._is_clear_filters_command`. -/
def isClearFiltersCommand (text : String) : Bool :=
  clearPatterns.any (fun p => rmatches p text)

/-- An entry of the constructor's `alias_mapping`: a `{field, value}` table
or a bare field name. -/
inductive AliasInfo where
  | table (field : Option String) (value : Option Json)
  | fieldName (s : String)
deriving Repr

/-- `IntelligentFilterDetector._detect_alias_filters` (`re.escape` makes
the alias a literal; `\b`-delimited). -/
def detectAliasFilters (aliasMapping : List (String × AliasInfo))
    (text : String) : Ctx :=
  aliasMapping.foldl (fun filters entry =>
    let aliasRx := rxSeq [Rx.wb, lits (lowerStr entry.1), Rx.wb]
    if rmatches aliasRx text then
      match entry.2 with
      | .table fieldName? value? =>
        match fieldName?, value? with
        | some f, some v =>
          if f ≠ "" && jTruthy v then dset filters f v else filters
        | _, _ => filters
      | .fieldName f =>
        let valueRx := rxSeq [Rx.wb, lits (lowerStr entry.1), Rx.wb,
          Rx.pls (.cls (.pos [.spc, .ch ':', .ch '='])),
          Rx.grp (Rx.pls (.cls (.neg [.spc, .ch ','])))]
        match rsearch valueRx text with
        | some (caps, _) => dset filters f (.str (caps.headD ""))
        | none => filters
    else filters) []

/-- `IntelligentFilterDetector._normalize_filter_values` (applied only when
a text normalizer was injected). -/
def normalizeFilterValues (norm : String → String) (filters : Ctx) : Ctx :=
  filters.map (fun kv =>
    if strStarts kv.1 "_" || kv.1 = "Data_>=" || kv.1 = "Data_<" then kv
    else
      match kv.2 with
      | .str s => (kv.1, Json.str (norm s))
      | v => (kv.1, v))

/-- `IntelligentFilterDetector.detect_filters_from_text`.  `now` models
`datetime.now()`, used only when `max_date` is absent; `current_context` is
accepted and ignored exactly as in the source. -/
def detectFiltersFromText (aliasMapping : List (String × AliasInfo))
    (norm : Option (String → String)) (text : String) (_currentContext : Ctx)
    (maxDate : Option PDate) (now : PDate) : Ctx :=
  let textLower := lowerStr text
  if isClearFiltersCommand textLower then
    [("clear_all_filters", .bool true)]
  else
    let f1 := detectTemporalFilters textLower (maxDate.getD now)
    let f2 := dupdate f1 (detectGeographicFilters textLower)
    let f3 := dupdate f2 (detectAliasFilters aliasMapping textLower)
    let f4 :=
      match detectExclusionPatterns textLower with
      | some mode => dset f3 "_filter_mode" (.str mode)
      | none => f3
    match norm with
    | some nf => normalizeFilterValues nf f4
    | none => f4

/-! ### `SQLFilterExtractor` (src/src/filters/legacy/unified_filter_core.py) -/

/-- `FilterCategory`. -/
inductive FCat where
  | temporal
  | geographic
  | client
  | product
  | representative
  | other
deriving Repr, DecidableEq

/-- `self.category_mapping` with the `.get(column, OTHER)` default. -/
def categoryMapping (column : String) : FCat :=
  let table : List (String × FCat) :=
    [("data", .temporal), ("data_inicio", .temporal), ("data_fim", .temporal),
     ("periodo", .temporal), ("mes", .temporal), ("ano", .temporal),
     ("uf_cliente", .geographic), ("municipio_cliente", .geographic),
     ("cidade", .geographic), ("estado", .geographic),
     ("cod_cliente", .client), ("cod_segmento_cliente", .client),
     ("cliente", .client),
     ("cod_familia_produto", .product), ("cod_grupo_produto", .product),
     ("cod_linha_produto", .product), ("des_linha_produto", .product),
     ("produto", .product),
     ("cod_vendedor", .representative), ("cod_regiao_vendedor", .representative),
     ("vendedor", .representative)]
  match table.find? (fun kv => kv.1 = column) with
  | some kv => kv.2
  | none => .other

/-- `FilterDefinition` (the fields the extractor populates). -/
structure FilterDef where
  key : String
  value : String
  category : FCat
  operator : String
  source : String
deriving Repr, DecidableEq

/-- A quoted SQL literal: `'([^']*)'`. -/
def quotedLit : Rx :=
  rxSeq [Rx.lit squo, Rx.grp (Rx.star (.cls (.neg [.ch squo])) true), Rx.lit squo]

/-- `_parse_condition_token`'s patterns: `(\w+)\s*OP\s*'([^']*)'` for the
five comparison operators and `(\w+)\s+LIKE\s+'([^']*)'`, compiled with
`re.IGNORECASE` (note: no tolerance for a wrapping function call). -/
def condPatterns : List (Rx × String) :=
  let head := Rx.grp (Rx.pls rxw)
  let mk := fun (op : String) =>
    rxSeq [head, Rx.star rxs true, lits op, Rx.star rxs true, quotedLit]
  [(mk "=", "="), (mk ">", ">"), (mk "<", "<"), (mk ">=", ">="), (mk "<=", "<="),
   (rxSeq [head, Rx.pls rxs, litsCI "LIKE", Rx.pls rxs, quotedLit], "LIKE")]

/-- `SQLFilterExtractor._parse_condition_token` (the `str(token).strip()`
of a token is passed in). -/
def parseConditionToken (token : String) : List FilterDef :=
  let conditionStr := strip token
  condPatterns.foldl (fun acc p =>
    acc ++ (findall p.1 conditionStr).map (fun m =>
      let column := lowerStr (m.1.headD "")
      let value := m.1.getD 1 ""
      { key := column, value := value, category := categoryMapping column,
        operator := p.2, source := "sql" })) []

/-- `re.sub(r'\s+', ' ', sql_query.strip())`. -/
def normalizeSpaces (s : String) : String :=
  String.mk ((strip s).data.foldr (fun c acc =>
    if isSpaceCh c then
      match acc with
      | ' ' :: _ => acc
      | _ => ' ' :: acc
    else c :: acc) [])

/-- The fallback's WHERE-clause pattern:
`\bWHERE\b(.*?)(?:\bGROUP BY\b|\bORDER BY\b|\bHAVING\b|\bLIMIT\b|$)`,
compiled with `re.IGNORECASE`. -/
def whereClauseRx : Rx :=
  rxSeq [Rx.wb, litsCI "WHERE", Rx.wb,
    Rx.grp (Rx.star (.cls (.anyc false)) false),
    altList [rxSeq [Rx.wb, litsCI "GROUP BY", Rx.wb],
      rxSeq [Rx.wb, litsCI "ORDER BY", Rx.wb],
      rxSeq [Rx.wb, litsCI "HAVING", Rx.wb],
      rxSeq [Rx.wb, litsCI "LIMIT", Rx.wb],
      Rx.eost false]]

/-- The fallback's tolerant patterns:
`(?:LOWER\()?(\w+)\)?\s*OP\s*'([^']*)'` (`re.IGNORECASE`). -/
def fallbackPatterns : List (Rx × String) :=
  let head := rxSeq [Rx.opt (rxSeq [litsCI "LOWER", Rx.lit '(']),
    Rx.grp (Rx.pls rxw), Rx.opt (Rx.lit ')')]
  let mk := fun (op : String) =>
    rxSeq [head, Rx.star rxs true, lits op, Rx.star rxs true, quotedLit]
  [(mk "=", "="), (mk ">", ">"), (mk "<", "<"), (mk ">=", ">="), (mk "<=", "<=")]

/-- `SQLFilterExtractor._fallback_regex_extraction`. -/
def fallbackRegexExtraction (sqlQuery : String) : List FilterDef :=
  let normalizedQuery := normalizeSpaces sqlQuery
  match rsearch whereClauseRx normalizedQuery with
  | none => []
  | some (caps, _) =>
    let whereClause := strip (caps.headD "")
    fallbackPatterns.foldl (fun acc p =>
      acc ++ (findall p.1 whereClause).map (fun m =>
        let column := lowerStr (m.1.headD "")
        let value := m.1.getD 1 ""
        { key := column, value := value, category := categoryMapping column,
          operator := p.2, source := "sql" })) []

/-! ### `FilterState` (src/src/filters/legacy/unified_filter_core.py)

The single-source-of-truth state holder.  `last_sync_timestamp` (wall-clock
bookkeeping) is not modelled; no claim mentions it. -/

/-- `FilterDefinition.filter_id`. -/
def filterId (fd : FilterDef) : String := fd.key ++ ":" ++ fd.value

/-- `FilterState`: the stored filters (a dict keyed by `filter_id`) and the
disabled-id set (a list with set semantics). -/
structure FilterState where
  filters : List (String × FilterDef)
  disabledFilterIds : List String
deriving Repr

/-- The empty state (`FilterState()`). -/
def FilterState.empty : FilterState := ⟨[], []⟩

def fsKeys (s : FilterState) : List String := s.filters.map Prod.fst

def fsGet (s : FilterState) (fid : String) : Option FilterDef :=
  match s.filters.find? (fun kv => kv.1 = fid) with
  | some kv => some kv.2
  | none => none

/-- Ordered-dict assignment for the filters map. -/
def fsSet (l : List (String × FilterDef)) (k : String) (v : FilterDef) :
    List (String × FilterDef) :=
  match l with
  | [] => [(k, v)]
  | (k', v') :: rest => if k' = k then (k', v) :: rest else (k', v') :: fsSet rest k v

/-- `set.add`. -/
def setAdd (l : List String) (x : String) : List String :=
  if l.contains x then l else l ++ [x]

/-- `set.discard`. -/
def setDiscard (l : List String) (x : String) : List String :=
  l.filter (· ≠ x)

/-- `FilterState.add_filter` (the `try` never fails: a dict assignment). -/
def FilterState.addFilter (s : FilterState) (fd : FilterDef) :
    Bool × FilterState :=
  (true, { s with filters := fsSet s.filters (filterId fd) fd })

/-- `FilterState.remove_filter`. -/
def FilterState.removeFilter (s : FilterState) (fid : String) :
    Bool × FilterState :=
  if (fsGet s fid).isSome then
    (true, { filters := s.filters.filter (fun kv => kv.1 ≠ fid),
             disabledFilterIds := setDiscard s.disabledFilterIds fid })
  else (false, s)

/-- `FilterState.disable_filter`. -/
def FilterState.disableFilter (s : FilterState) (fid : String) :
    Bool × FilterState :=
  if (fsGet s fid).isSome then
    (true, { s with disabledFilterIds := setAdd s.disabledFilterIds fid })
  else (false, s)

/-- `FilterState.enable_filter`. -/
def FilterState.enableFilter (s : FilterState) (fid : String) :
    Bool × FilterState :=
  if (fsGet s fid).isSome then
    (true, { s with disabledFilterIds := setDiscard s.disabledFilterIds fid })
  else (false, s)

/-- `FilterState.clear_all_filters`. -/
def FilterState.clearAllFilters (_s : FilterState) : Bool × FilterState :=
  (true, ⟨[], []⟩)

/-- `FilterState.get_active_filters`. -/
def FilterState.getActiveFilters (s : FilterState) : List (String × FilterDef) :=
  s.filters.filter (fun kv => !s.disabledFilterIds.contains kv.1)

/-- `FilterState.get_disabled_filters`. -/
def FilterState.getDisabledFilters (s : FilterState) : List (String × FilterDef) :=
  s.filters.filter (fun kv => s.disabledFilterIds.contains kv.1)

/-- One operation on a `FilterState`. -/
inductive FOp where
  | add (fd : FilterDef)
  | remove (fid : String)
  | disable (fid : String)
  | enable (fid : String)
  | clearAll
deriving Repr

def applyFOp (s : FilterState) : FOp → FilterState
  | .add fd => (s.addFilter fd).2
  | .remove fid => (s.removeFilter fid).2
  | .disable fid => (s.disableFilter fid).2
  | .enable fid => (s.enableFilter fid).2
  | .clearAll => (s.clearAllFilters).2

/-- A state reached from the empty state by a sequence of operations. -/
def runFOps (ops : List FOp) : FilterState :=
  ops.foldl applyFOp FilterState.empty

/-- The invariant: every disabled id names a stored filter. -/
def fsInv (s : FilterState) : Prop :=
  ∀ fid ∈ s.disabledFilterIds, fid ∈ fsKeys s

/-! ### Predicates used by the claim statements -/

/-- A candidate value that is JSON `null` or an empty list (an absent key
is handled separately). -/
def isNullOrEmptyList (v : Json) : Bool :=
  Json.beq v .null || Json.beq v (.arr [])

/-- A candidate value that is `null`, an empty list or an empty string. -/
def isNullEmptyOrBlank (v : Json) : Bool :=
  Json.beq v .null || Json.beq v (.arr []) || Json.beq v (.str "")

/-- Whether a `periodo` category payload carries an explicit non-empty
structured period — a truthy `{inicio, fim}` pair of month dicts, or (when
no such pair is present) a truthy `mes`/`ano` pair — that converts to a
date range; exactly these payloads make
`_processar_periodo_estruturado` replace the `Data*` keys. -/
def periodoReplaces (campos : Json) : Bool :=
  match campos with
  | .obj items =>
    (match dget items "inicio", dget items "fim" with
     | some i, some fi =>
       jTruthy i && jTruthy fi && jIsObj i && jIsObj fi
         && (convertIntervalRanges i fi).isSome
     | _, _ => false)
    ||
    (!(dmem items "inicio" && dmem items "fim") &&
     match dget items "mes", dget items "ano" with
     | some m, some a =>
       jTruthy m && jTruthy a && (convertMesAnoRanges m a).isSome
     | _, _ => false)
  | _ => false

/-- The fuzzy-containment test of `validar_valores`: case-insensitive
substring in either direction. -/
def fuzzyMatches (cand legal : String) : Bool :=
  hasSub (upperStr legal) (upperStr cand) || hasSub (upperStr cand) (upperStr legal)

/-- The exact string-match intersection of candidate values with a
column's legal values (`valores_exatos`). -/
def exactIntersection (valores legais : List Json) : List String :=
  (valores.map pyStr).filter (fun v => (legais.map pyStr).contains v)

/-! ## Theorems for the claims -/

set_option maxRecDepth 8000

/-- C2: the claim says that resolving `{Municipio_Cliente: "JOINVILLE"}`
against the existing context `{UF_Cliente: "SC"}` with the default smart
strategy drops `UF_Cliente`.  Evaluating the embedded
`FilterConflictResolver.resolve_conflicts` at exactly that scenario shows
the resolved context still contains `UF_Cliente = "SC"`:
`_resolve_geographic_conflicts` returns only the new city filter, but
`resolve_conflicts` merges that result into a copy of the full existing
context with `dict.update`, which never removes the superseded key. -/
theorem c2_resolve_keeps_uf_cliente :
    resolveConflicts [("Municipio_Cliente", .str "JOINVILLE")]
      [("UF_Cliente", .str "SC")] "smart"
    = ([("UF_Cliente", .str "SC"), ("Municipio_Cliente", .str "JOINVILLE")],
       ["Conflito em geographic: Conflito semântico: UF_Cliente vs Municipio_Cliente"]) :=
  rfl

/-- C3 (counterexample): with dataset max date 2016-08-31 and the text
"últimos 3 meses", `_detect_temporal_filters` produces no `Data_<` key at
all, and its `Data_>=` is `2016-06-02` (max date minus 30·3 days), not
`2016-05-31` or a first-of-month date as the claim states. -/
theorem c3_last3months_counterexample :
    dget (detectTemporalFilters "últimos 3 meses" ⟨2016, 8, 31⟩) "Data_<" = none
    ∧ dget (detectTemporalFilters "últimos 3 meses" ⟨2016, 8, 31⟩) "Data_>="
      = some (.str "2016-06-02") :=
  ⟨rfl, rfl⟩

/-- C3 (amended): relative expressions are resolved against the dataset's
maximum date — for every max date, "últimos 3 meses" yields exactly
`Data_>= = max_date - 90 days` (30 days per month) and no upper bound. -/
theorem c3_last3months_relative_to_max_date (maxDate : PDate) :
    detectTemporalFilters "últimos 3 meses" maxDate
    = [("Data_>=", .str (fmtDate (subDays maxDate 90)))] :=
  rfl

/-- C4: the claim says a new `Data_>=` candidate makes all prior temporal
keys (such as `ano`) disappear.  Evaluating `resolve_conflicts` (smart
strategy) on existing `{ano: "2015"}` and new `{Data_>=: "2016-01-01"}`
shows `ano` survives: `_resolve_temporal_conflicts` returns only the new
range, but the caller applies it with `dict.update` on a copy of the whole
existing context, so the superseded `ano` key is never removed. -/
theorem c4_new_range_keeps_prior_ano :
    resolveConflicts [("Data_>=", .str "2016-01-01")] [("ano", .str "2015")] "smart"
    = ([("ano", .str "2015"), ("Data_>=", .str "2016-01-01")],
       ["Conflito em temporal: Conflito semântico: ano vs Data_>="]) :=
  rfl

/-- C5: any input text matching a clear-filters pattern makes
`detect_filters_from_text` return the `{clear_all_filters: True}` sentinel
(whatever the alias mapping, normalizer, prior context and dates), and
resolving that sentinel against any prior context with any strategy returns
the empty context. -/
theorem c5_clear_filters_command (aliasMapping : List (String × AliasInfo))
    (norm : Option (String → String)) (text : String) (ctx : Ctx)
    (maxDate : Option PDate) (now : PDate) (strategy : String)
    (h : isClearFiltersCommand (lowerStr text) = true) :
    detectFiltersFromText aliasMapping norm text ctx maxDate now
      = [("clear_all_filters", .bool true)]
    ∧ resolveConflicts [("clear_all_filters", .bool true)] ctx strategy
      = ([], ["Todos os filtros foram limpos"]) := by
  constructor
  · unfold detectFiltersFromText
    simp only []
    rw [h]
    simp
  · rfl

/-- C5 witness: the command "limpar filtros" clears a nonempty context. -/
theorem c5_clear_filters_witness :
    isClearFiltersCommand (lowerStr "limpar filtros") = true
    ∧ detectFiltersFromText [] none "limpar filtros"
        [("UF_Cliente", .str "SC")] none ⟨2024, 1, 1⟩
      = [("clear_all_filters", .bool true)]
    ∧ resolveConflicts [("clear_all_filters", .bool true)]
        [("UF_Cliente", .str "SC")] "smart"
      = ([], ["Todos os filtros foram limpos"]) :=
  ⟨rfl,
   (c5_clear_filters_command [] none "limpar filtros" [("UF_Cliente", .str "SC")]
     none ⟨2024, 1, 1⟩ "smart" rfl).1,
   (c5_clear_filters_command [] none "limpar filtros" [("UF_Cliente", .str "SC")]
     none ⟨2024, 1, 1⟩ "smart" rfl).2⟩

/-- C6: the claim says extracting from
`SELECT ... WHERE LOWER(uf_cliente) = 'sc' AND valor > '1000'` yields both
a Geographic `uf_cliente` candidate and an Other `valor` candidate.  The
structural path's `_parse_condition_token` patterns have no tolerance for
the `LOWER(` wrapper (`(\w+)` cannot match across `LOWER(...)`), so — for
any way sqlparse splits the WHERE tail into condition tokens, each of which
is a substring of the clause — the `uf_cliente` comparison yields nothing
and only the `valor` candidate is produced.  The tolerant pattern lives
only in `_fallback_regex_extraction`, which does extract both candidates
but runs only when structural parsing raises. -/
theorem c6_lower_wrapped_column_missed :
    parseConditionToken "LOWER(uf_cliente) = 'sc' AND valor > '1000'"
      = [{ key := "valor", value := "1000", category := .other,
           operator := ">", source := "sql" }]
    ∧ parseConditionToken "LOWER(uf_cliente) = 'sc'" = []
    ∧ parseConditionToken "valor > '1000'"
      = [{ key := "valor", value := "1000", category := .other,
           operator := ">", source := "sql" }]
    ∧ fallbackRegexExtraction
        "SELECT * FROM vendas WHERE LOWER(uf_cliente) = 'sc' AND valor > '1000'"
      = [{ key := "uf_cliente", value := "sc", category := .geographic,
           operator := "=", source := "sql" },
         { key := "valor", value := "1000", category := .other,
           operator := ">", source := "sql" }] :=
  ⟨rfl, rfl, rfl, rfl⟩

/-- C7: `processar_json_response` never propagates an internal exception:
whenever the body of its `try` block raises, the returned context is the
prior context unchanged and the error is recorded in the change list. -/
theorem c7_fail_safe_resolution (dom : Domain) (responseText : String)
    (ctx : Ctx) (e : String)
    (h : innerProcessarJson dom responseText ctx = .error e) :
    processarJsonResponse dom responseText ctx
      = (ctx, ["Erro ao processar JSON: " ++ e]) := by
  unfold processarJsonResponse
  rw [h]

/-- C7 witness: a response whose JSON block decodes to a list (not an
object) raises `AttributeError` inside `_atualizar_filtros_do_json`; the
prior context is returned unchanged with the error logged. -/
theorem c7_fail_safe_witness :
    innerProcessarJson [] "```json\n[1, 2]\n```" [("UF_Cliente", .str "SC")]
      = .error "AttributeError: get"
    ∧ processarJsonResponse [] "```json\n[1, 2]\n```" [("UF_Cliente", .str "SC")]
      = ([("UF_Cliente", .str "SC")],
         ["Erro ao processar JSON: AttributeError: get"]) :=
  ⟨rfl,
   c7_fail_safe_resolution [] "```json\n[1, 2]\n```" [("UF_Cliente", .str "SC")]
     "AttributeError: get" rfl⟩

theorem dget_dset (d : Ctx) (k' k : String) (v : Json) :
    dget (dset d k' v) k = if k' = k then some v else dget d k := by
  induction d with
  | nil => by_cases h : k' = k <;> simp [dset, dget, h]
  | cons hd t ih =>
    obtain ⟨hk, hv⟩ := hd
    by_cases h1 : hk = k'
    · subst h1
      by_cases h2 : hk = k
      · subst h2
        simp [dset, dget]
      · simp [dset, dget, h2]
    · by_cases h2 : hk = k
      · subst h2
        have hne : ¬k' = hk := fun hh => h1 hh.symm
        simp [dset, dget, h1, hne]
      · simp [dset, dget, h1, h2, ih]

theorem dmem_dset (d : Ctx) (k' k : String) (v : Json) :
    dmem (dset d k' v) k = (decide (k' = k) || dmem d k) := by
  by_cases h : k' = k <;> simp [dmem, dget_dset, h]

theorem dget_some_mem (d : Ctx) (k : String) (v : Json) (h : dget d k = some v) :
    (k, v) ∈ d := by
  induction d with
  | nil => simp [dget] at h
  | cons hd t ih =>
    obtain ⟨hk, hv⟩ := hd
    by_cases h1 : hk = k
    · subst h1
      simp [dget] at h
      subst h
      exact List.mem_cons_self _ _
    · simp [dget, h1] at h
      exact List.mem_cons_of_mem _ (ih h)

theorem aplicarStep_eq (contexto : Ctx) (dis : List String) (acc : Ctx)
    (kv : String × Json) :
    aplicarStep contexto dis acc kv
      = if aplicarKeep contexto dis kv then dset acc kv.1 kv.2 else acc := by
  unfold aplicarStep aplicarKeep
  by_cases hc : ((kv.1 = "Data_>=" || kv.1 = "Data_<")
      && dmem contexto "Data_>=" && dmem contexto "Data_<") = true
  · simp only [hc, if_true]
    cases hge : dget contexto "Data_>=" with
    | none => simp
    | some s =>
      cases hlt : dget contexto "Data_<" with
      | none => simp
      | some e =>
        by_cases h1 : (jTruthy s && jTruthy e) = true
        · by_cases h2 : dis.contains
              ("Data_range:" ++ pyStr s ++ "_" ++ pyStr e) = true <;>
            simp [h1, h2]
        · simp [h1]
  · simp only [Bool.not_eq_true] at hc
    simp [hc]

theorem dmem_foldl_aplicar (contexto : Ctx) (dis : List String) (k : String) :
    ∀ (l : List (String × Json)) (acc : Ctx),
      dmem (l.foldl (aplicarStep contexto dis) acc) k
        = (l.any (fun kv => decide (kv.1 = k) && aplicarKeep contexto dis kv)
           || dmem acc k) := by
  intro l
  induction l with
  | nil => intro acc; simp
  | cons hd t ih =>
    intro acc
    simp only [List.foldl_cons, List.any_cons]
    rw [ih, aplicarStep_eq]
    by_cases hk : aplicarKeep contexto dis hd = true
    · simp only [hk, if_true, dmem_dset]
      cases h1 : decide (hd.1 = k) <;>
        cases h2 : t.any (fun kv => decide (kv.1 = k) && aplicarKeep contexto dis kv) <;>
        cases h3 : dmem acc k <;> simp [h1, h2, h3]
    · simp only [Bool.not_eq_true] at hk
      simp [hk]

/-- C8: whenever a context holds both `Data_>=` and `Data_<`,
`aplicar_filtros_desabilitados` decides their survival by the single
composite id `Data_range:start_end`, so for every disabled-id set either
both keys remain or both are excluded — no set keeps exactly one. -/
theorem c8_range_pairing (contexto : Ctx) (dis : List String) (a b : Json)
    (ha : dget contexto "Data_>=" = some a)
    (hb : dget contexto "Data_<" = some b) :
    (dmem (aplicarFiltrosDesabilitados contexto dis) "Data_>=" = true
     ↔ dmem (aplicarFiltrosDesabilitados contexto dis) "Data_<" = true) := by
  unfold aplicarFiltrosDesabilitados
  cases hemp : dis.isEmpty with
  | true => simp [dmem, ha, hb]
  | false =>
    simp only [Bool.false_eq_true, if_false]
    rw [dmem_foldl_aplicar, dmem_foldl_aplicar]
    have hK : ∀ kv : String × Json, kv.1 = "Data_>=" ∨ kv.1 = "Data_<" →
        aplicarKeep contexto dis kv
          = (jTruthy a && jTruthy b
             && !dis.contains ("Data_range:" ++ pyStr a ++ "_" ++ pyStr b)) := by
      intro kv hkv
      have h1 : dmem contexto "Data_>=" = true := by simp [dmem, ha]
      have h2 : dmem contexto "Data_<" = true := by simp [dmem, hb]
      unfold aplicarKeep
      rcases hkv with h | h <;> simp [h, h1, h2, ha, hb]
    have hmemnil : dmem ([] : Ctx) "Data_>=" = false := rfl
    have hmemnil2 : dmem ([] : Ctx) "Data_<" = false := rfl
    rw [hmemnil, hmemnil2, Bool.or_false, Bool.or_false,
      List.any_eq_true, List.any_eq_true]
    constructor
    · rintro ⟨kv, hmem, hkv⟩
      rw [Bool.and_eq_true, decide_eq_true_eq] at hkv
      obtain ⟨hk1, hk2⟩ := hkv
      rw [hK kv (Or.inl hk1)] at hk2
      refine ⟨("Data_<", b), dget_some_mem _ _ _ hb, ?_⟩
      rw [Bool.and_eq_true, decide_eq_true_eq]
      exact ⟨rfl, by rw [hK ("Data_<", b) (Or.inr rfl)]; exact hk2⟩
    · rintro ⟨kv, hmem, hkv⟩
      rw [Bool.and_eq_true, decide_eq_true_eq] at hkv
      obtain ⟨hk1, hk2⟩ := hkv
      rw [hK kv (Or.inr hk1)] at hk2
      refine ⟨("Data_>=", a), dget_some_mem _ _ _ ha, ?_⟩
      rw [Bool.and_eq_true, decide_eq_true_eq]
      exact ⟨rfl, by rw [hK ("Data_>=", a) (Or.inl rfl)]; exact hk2⟩

/-- C8 witness: disabling the composite range id excludes both bounds at
once (and the resulting context is empty). -/
theorem c8_range_pairing_witness :
    (dmem (aplicarFiltrosDesabilitados
        [("Data_>=", .str "2016-01-01"), ("Data_<", .str "2016-02-01")]
        ["Data_range:2016-01-01_2016-02-01"]) "Data_>=" = true
     ↔ dmem (aplicarFiltrosDesabilitados
        [("Data_>=", .str "2016-01-01"), ("Data_<", .str "2016-02-01")]
        ["Data_range:2016-01-01_2016-02-01"]) "Data_<" = true)
    ∧ aplicarFiltrosDesabilitados
        [("Data_>=", .str "2016-01-01"), ("Data_<", .str "2016-02-01")]
        ["Data_range:2016-01-01_2016-02-01"] = [] :=
  ⟨c8_range_pairing _ _ (.str "2016-01-01") (.str "2016-02-01") rfl rfl, rfl⟩

theorem fuzzyFold_length_le (validosStr : List String) :
    ∀ valoresStr : List String,
      (fuzzyFold valoresStr validosStr).length ≤ valoresStr.length := by
  have main : ∀ (l : List String) (init : List String),
      (l.foldl (fun acc valor =>
        acc ++ (validosStr.filter (fun v =>
          hasSub (upperStr v) (upperStr valor)
            || hasSub (upperStr valor) (upperStr v))).take 1) init).length
      ≤ init.length + l.length := by
    intro l
    induction l with
    | nil => intro init; simp
    | cons hd t ih =>
      intro init
      have h1 := ih (init ++ (validosStr.filter (fun v =>
        hasSub (upperStr v) (upperStr hd)
          || hasSub (upperStr hd) (upperStr v))).take 1)
      simp only [List.foldl_cons, List.length_cons]
      refine h1.trans ?_
      simp only [List.length_append]
      have := List.length_take_le 1 (validosStr.filter (fun v =>
        hasSub (upperStr v) (upperStr hd)
          || hasSub (upperStr hd) (upperStr v)))
      omega
  intro valoresStr
  have := main valoresStr []
  simpa [fuzzyFold] using this

theorem fuzzyFold_mem (validosStr : List String) :
    ∀ (valoresStr : List String) (r : String), r ∈ fuzzyFold valoresStr validosStr →
      r ∈ validosStr ∧ ∃ cand ∈ valoresStr, fuzzyMatches cand r = true := by
  have main : ∀ (l : List String) (init : List String) (r : String),
      r ∈ l.foldl (fun acc valor =>
        acc ++ (validosStr.filter (fun v =>
          hasSub (upperStr v) (upperStr valor)
            || hasSub (upperStr valor) (upperStr v))).take 1) init →
      r ∈ init ∨ (r ∈ validosStr ∧ ∃ cand ∈ l, fuzzyMatches cand r = true) := by
    intro l
    induction l with
    | nil => intro init r h; exact Or.inl h
    | cons hd t ih =>
      intro init r h
      simp only [List.foldl_cons] at h
      rcases ih _ r h with hin | ⟨hv, cand, hc, hm⟩
      · rw [List.mem_append] at hin
        rcases hin with hin | hin
        · exact Or.inl hin
        · have hfil := List.mem_of_mem_take hin
          rw [List.mem_filter] at hfil
          exact Or.inr ⟨hfil.1, hd, List.mem_cons_self _ _, hfil.2⟩
      · exact Or.inr ⟨hv, cand, List.mem_cons_of_mem _ hc, hm⟩
  intro valoresStr r h
  rcases main valoresStr [] r h with hin | hgood
  · simp at hin
  · exact hgood

/-- C9: `validar_valores` is fail-open for fields that are neither on the
permissive allow-list nor in the domain index (candidates pass through
unmodified); for indexed fields it returns the exact string intersection
when nonempty, and otherwise falls back to fuzzy case-insensitive
containment matching with at most one accepted legal value per candidate. -/
theorem c9_validator_fail_open_and_fuzzy (dom : Domain) (campo : String)
    (valores : List Json) (categoria : String)
    (hperm : campo ∉ camposPermissivos)
    (hperml : lowerStr campo ∉ camposPermissivos.map lowerStr) :
    (domGet dom campo = none →
      validarValores dom campo valores categoria = valores)
    ∧ (∀ legais, domGet dom campo = some legais →
        (exactIntersection valores legais ≠ [] →
          validarValores dom campo valores categoria
            = (exactIntersection valores legais).map Json.str)
        ∧ (exactIntersection valores legais = [] →
            (validarValores dom campo valores categoria).length ≤ valores.length
            ∧ ∀ r ∈ validarValores dom campo valores categoria,
                ∃ s, r = Json.str s ∧ s ∈ legais.map pyStr
                  ∧ ∃ cand ∈ valores.map pyStr, fuzzyMatches cand s = true)) := by
  unfold validarValores
  rw [if_neg (by simp [hperm, hperml])]
  constructor
  · intro hnone
    rw [hnone]
  · intro legais hleg
    rw [hleg]
    dsimp only
    have hEx : (valores.map pyStr).filter (fun v => (legais.map pyStr).contains v)
        = exactIntersection valores legais := rfl
    rw [hEx]
    constructor
    · intro hne
      rw [if_neg]
      intro hcond
      rw [Bool.and_eq_true] at hcond
      exact hne (List.isEmpty_eq_true.mp hcond.1)
    · intro heq
      rw [heq]
      by_cases hvs : (valores.map pyStr).isEmpty = true
      · rw [if_neg (by rw [hvs]; simp)]
        have : valores = [] := by
          rcases valores with _ | ⟨x, xs⟩
          · rfl
          · simp at hvs
        subst this
        exact ⟨by simp, by simp⟩
      · have hvs' : (valores.map pyStr).isEmpty = false := by
          rw [Bool.not_eq_true] at hvs
          exact hvs
        rw [if_pos (by rw [hvs']; rfl)]
        by_cases hfe : (fuzzyFold (valores.map pyStr) (legais.map pyStr)).isEmpty = true
        · rw [if_neg (by rw [hfe]; simp)]
          exact ⟨by simp, by simp⟩
        · rw [if_pos (by rw [Bool.not_eq_true] at hfe; rw [hfe]; rfl)]
          constructor
          · have h1 := fuzzyFold_length_le (legais.map pyStr) (valores.map pyStr)
            rw [List.length_map]
            rw [List.length_map] at h1
            exact h1
          · intro r hr
            rw [List.mem_map] at hr
            obtain ⟨s, hs, hrs⟩ := hr
            have h2 := fuzzyFold_mem (legais.map pyStr) (valores.map pyStr) s hs
            exact ⟨s, hrs.symm, h2.1, h2.2⟩

/-- C9 witness: an unindexed field passes through unmodified; an indexed
field with no exact hit fuzzy-matches at most one legal value. -/
theorem c9_validator_witness :
    validarValores [("UF_Cliente", [.str "SC", .str "SP"])] "Foo"
        [.str "qualquer"] "outro" = [.str "qualquer"]
    ∧ validarValores [("UF_Cliente", [.str "SC", .str "SP"])] "UF_Cliente"
        [.str "sc"] "regiao" = [.str "SC"] := by
  have h1 := (c9_validator_fail_open_and_fuzzy
    [("UF_Cliente", [.str "SC", .str "SP"])] "Foo" [.str "qualquer"] "outro"
    (by decide) (by decide)).1
  have h2 := (c9_validator_fail_open_and_fuzzy
    [("UF_Cliente", [.str "SC", .str "SP"])] "UF_Cliente" [.str "sc"] "regiao"
    (by decide) (by decide)).2
  exact ⟨h1 rfl, by rfl⟩

theorem fsGet_isSome_iff (s : FilterState) (fid : String) :
    (fsGet s fid).isSome = true ↔ fid ∈ fsKeys s := by
  unfold fsGet fsKeys
  induction s.filters with
  | nil => simp
  | cons hd t ih =>
    by_cases h1 : hd.1 = fid
    · simp [List.find?_cons, h1]
    · simp only [List.find?_cons, h1, decide_False, List.map_cons, List.mem_cons]
      rw [← ih]
      constructor
      · intro hh
        exact Or.inr hh
      · rintro (hh | hh)
        · exact absurd hh.symm h1
        · exact hh

theorem mem_fsKeys_fsSet (l : List (String × FilterDef)) (k k' : String)
    (v : FilterDef) (h : k ∈ l.map Prod.fst) :
    k ∈ (fsSet l k' v).map Prod.fst := by
  induction l with
  | nil => simp at h
  | cons hd t ih =>
    rw [List.map_cons, List.mem_cons] at h
    by_cases h1 : hd.1 = k'
    · simp only [fsSet, h1, if_true, List.map_cons, List.mem_cons]
      exact h.imp (fun hh => hh.trans h1) id
    · simp only [fsSet, h1, if_false, List.map_cons, List.mem_cons]
      rcases h with h | h
      · exact Or.inl h
      · exact Or.inr (ih h)

theorem mem_setAdd (l : List String) (x fid : String) (h : fid ∈ setAdd l x) :
    fid ∈ l ∨ fid = x := by
  unfold setAdd at h
  by_cases hc : l.contains x
  · rw [if_pos hc] at h
    exact Or.inl h
  · rw [if_neg hc] at h
    rw [List.mem_append] at h
    rcases h with h | h
    · exact Or.inl h
    · rw [List.mem_singleton] at h
      exact Or.inr h

theorem fsInv_applyFOp (s : FilterState) (op : FOp) (h : fsInv s) :
    fsInv (applyFOp s op) := by
  cases op with
  | add fd =>
    intro fid hfid
    exact mem_fsKeys_fsSet _ _ _ _ (h fid hfid)
  | remove fid' =>
    simp only [applyFOp, FilterState.removeFilter]
    by_cases hc : (fsGet s fid').isSome = true
    · rw [if_pos hc]
      intro fid hfid
      simp only [setDiscard, List.mem_filter, decide_eq_true_eq] at hfid
      obtain ⟨hin, hne⟩ := hfid
      have hk := h fid hin
      unfold fsKeys at hk ⊢
      rw [List.mem_map] at hk ⊢
      obtain ⟨kv, hkv, hkv1⟩ := hk
      refine ⟨kv, ?_, hkv1⟩
      rw [List.mem_filter]
      exact ⟨hkv, by rw [decide_eq_true_eq, hkv1]; exact hne⟩
    · rw [if_neg hc]
      exact h
  | disable fid' =>
    simp only [applyFOp, FilterState.disableFilter]
    by_cases hc : (fsGet s fid').isSome = true
    · rw [if_pos hc]
      intro fid hfid
      rcases mem_setAdd _ _ _ hfid with hin | heq
      · exact h fid hin
      · rw [heq]
        exact (fsGet_isSome_iff s fid').mp hc
    · rw [if_neg hc]
      exact h
  | enable fid' =>
    simp only [applyFOp, FilterState.enableFilter]
    by_cases hc : (fsGet s fid').isSome = true
    · rw [if_pos hc]
      intro fid hfid
      simp only [setDiscard, List.mem_filter] at hfid
      exact h fid hfid.1
    · rw [if_neg hc]
      exact h
  | clearAll =>
    intro fid hfid
    simp [applyFOp, FilterState.clearAllFilters] at hfid

/-- C10: every `FilterState` reachable from the empty state satisfies the
invariant that disabled ids never dangle; `disable_filter`/`enable_filter`
return `False` and leave the state unchanged for an unknown id;
`remove_filter` discards the removed id from the disabled set;
`clear_all_filters` empties both; and the active/disabled views always
partition the stored filters. -/
theorem c10_filter_state_invariant :
    (∀ ops : List FOp, fsInv (runFOps ops))
    ∧ (∀ (s : FilterState) (fid : String), fid ∉ fsKeys s →
        s.disableFilter fid = (false, s) ∧ s.enableFilter fid = (false, s))
    ∧ (∀ (s : FilterState) (fid : String), (fsGet s fid).isSome = true →
        fid ∉ ((s.removeFilter fid).2).disabledFilterIds)
    ∧ (∀ s : FilterState, (s.clearAllFilters).2.filters = []
        ∧ (s.clearAllFilters).2.disabledFilterIds = [])
    ∧ (∀ s : FilterState,
        (∀ kv, kv ∈ s.filters
          ↔ (kv ∈ s.getActiveFilters ∨ kv ∈ s.getDisabledFilters))
        ∧ ∀ kv, ¬(kv ∈ s.getActiveFilters ∧ kv ∈ s.getDisabledFilters)) := by
  refine ⟨?_, ?_, ?_, ?_, ?_⟩
  · intro ops
    have main : ∀ (l : List FOp) (s : FilterState), fsInv s →
        fsInv (l.foldl applyFOp s) := by
      intro l
      induction l with
      | nil => intro s hs; exact hs
      | cons hd t ih =>
        intro s hs
        exact ih _ (fsInv_applyFOp s hd hs)
    refine main ops FilterState.empty ?_
    intro fid hfid
    simp [FilterState.empty] at hfid
  · intro s fid hfid
    have hc : (fsGet s fid).isSome = false := by
      rw [← Bool.not_eq_true, fsGet_isSome_iff]
      exact hfid
    constructor
    · simp only [FilterState.disableFilter, hc]
      rfl
    · simp only [FilterState.enableFilter, hc]
      rfl
  · intro s fid hsome
    simp only [FilterState.removeFilter, hsome, if_pos]
    simp [setDiscard]
  · intro s
    exact ⟨rfl, rfl⟩
  · intro s
    constructor
    · intro kv
      by_cases hc : kv.1 ∈ s.disabledFilterIds
      · simp only [FilterState.getActiveFilters, FilterState.getDisabledFilters,
          List.mem_filter]
        constructor
        · intro hmem
          exact Or.inr ⟨hmem, by simpa using hc⟩
        · rintro (⟨hmem, _⟩ | ⟨hmem, _⟩) <;> exact hmem
      · simp only [FilterState.getActiveFilters, FilterState.getDisabledFilters,
          List.mem_filter]
        constructor
        · intro hmem
          exact Or.inl ⟨hmem, by simpa using hc⟩
        · rintro (⟨hmem, _⟩ | ⟨hmem, _⟩) <;> exact hmem
    · intro kv
      rintro ⟨ha, hd⟩
      simp only [FilterState.getActiveFilters, List.mem_filter] at ha
      simp only [FilterState.getDisabledFilters, List.mem_filter] at hd
      obtain ⟨_, ha2⟩ := ha
      obtain ⟨_, hd2⟩ := hd
      rw [hd2] at ha2
      exact Bool.noConfusion ha2

/-- C10 witness: after adding a filter and disabling it, the disabled id
names a stored filter; disabling an unknown id on the empty state fails
and changes nothing. -/
theorem c10_filter_state_witness :
    ("k:v" ∈ fsKeys (runFOps
      [.add ⟨"k", "v", .other, "=", "user"⟩, .disable "k:v"]))
    ∧ FilterState.empty.disableFilter "zz" = (false, FilterState.empty) :=
  ⟨(c10_filter_state_invariant.1
      [.add ⟨"k", "v", .other, "=", "user"⟩, .disable "k:v"]) "k:v" (by decide),
   (c10_filter_state_invariant.2.1 FilterState.empty "zz" (by
      intro h
      simp [FilterState.empty, fsKeys] at h)).1⟩

theorem beq_null_eq (v : Json) (h : Json.beq v .null = true) : v = .null := by
  cases v <;> simp [Json.beq] at h ⊢

theorem beq_arrnil_eq (v : Json) (h : Json.beq v (.arr []) = true) : v = .arr [] := by
  cases v with
  | arr l =>
    cases l with
    | nil => rfl
    | cons x xs => simp [Json.beq, Json.beqList] at h
  | null => simp [Json.beq] at h
  | bool b => simp [Json.beq] at h
  | num n => simp [Json.beq] at h
  | str s => simp [Json.beq] at h
  | obj o => simp [Json.beq] at h

theorem beq_strempty_eq (v : Json) (h : Json.beq v (.str "") = true) : v = .str "" := by
  cases v <;> simp [Json.beq] at h ⊢
  exact h

theorem validar_nil (dom : Domain) (campo categoria : String) :
    validarValores dom campo [] categoria = [] := by
  unfold validarValores
  split
  · rfl
  · split
    · rfl
    · rfl

theorem campoPermiteMultiplos_false_permissive (campo : String)
    (h : campoPermiteMultiplos campo = false) : campo ∈ camposPermissivos := by
  unfold campoPermiteMultiplos at h
  by_cases h1 : campo ∈ ["Data", "Data_>=", "Data_<", "periodo", "mes", "ano"]
  · have hsub : ∀ x ∈ ["Data", "Data_>=", "Data_<", "periodo", "mes", "ano"],
        x ∈ camposPermissivos := by decide
    exact hsub campo h1
  · rw [if_neg h1] at h
    split at h <;> simp at h

theorem validar_permissive (dom : Domain) (campo : String) (valores : List Json)
    (categoria : String) (h : campo ∈ camposPermissivos) :
    validarValores dom campo valores categoria = valores := by
  unfold validarValores
  rw [if_pos]
  simp [h]

theorem dget_ddel_ne (d : Ctx) (k' k : String) (h : k' ≠ k) :
    dget (ddel d k') k = dget d k := by
  induction d with
  | nil => rfl
  | cons hd t ih =>
    obtain ⟨hk, hv⟩ := hd
    by_cases h1 : hk = k'
    · subst h1
      have h2 : ¬hk = k := fun hh => h (hh ▸ rfl)
      simp [ddel, dget, h2]
    · by_cases h2 : hk = k
      · subst h2
        simp [ddel, dget, h1]
      · simp [ddel, dget, h1, h2, ih]

theorem dget_deleteDataKeys (d : Ctx) (f : String)
    (h : strStarts f "Data" = false) :
    dget (deleteDataKeys d) f = dget d f := by
  induction d with
  | nil => rfl
  | cons hd t ih =>
    obtain ⟨hk, hv⟩ := hd
    unfold deleteDataKeys at ih ⊢
    rw [List.filter_cons]
    by_cases h1 : strStarts hk "Data" = true
    · have h2 : ¬hk = f := by
        intro hh
        rw [hh, h] at h1
        exact Bool.noConfusion h1
      rw [if_neg (by rw [h1]; exact fun hh => Bool.noConfusion hh)]
      rw [ih]
      simp [dget, h2]
    · rw [Bool.not_eq_true] at h1
      rw [if_pos (by rw [h1]; rfl)]
      by_cases h2 : hk = f <;> simp [dget, h2, ih]

theorem mem_foldl_append_if_new (l : List Json) :
    ∀ (base : List Json) (x : Json), x ∈ base →
      x ∈ l.foldl (fun acc item =>
        if acc.any (Json.beq item) then acc else acc ++ [item]) base := by
  induction l with
  | nil => intro base x hx; exact hx
  | cons hd t ih =>
    intro base x hx
    simp only [List.foldl_cons]
    by_cases hc : base.any (Json.beq hd) = true
    · rw [if_pos hc]
      exact ih base x hx
    · rw [if_neg hc]
      exact ih _ x (List.mem_append_left _ hx)

theorem foldl_append_if_new_subset (l : List Json) :
    ∀ (base : List Json) (x : Json),
      x ∈ l.foldl (fun acc item =>
        if acc.any (Json.beq item) then acc else acc ++ [item]) base →
      x ∈ base ∨ x ∈ l := by
  induction l with
  | nil => intro base x hx; exact Or.inl hx
  | cons hd t ih =>
    intro base x hx
    simp only [List.foldl_cons] at hx
    by_cases hc : base.any (Json.beq hd) = true
    · rw [if_pos hc] at hx
      rcases ih base x hx with hh | hh
      · exact Or.inl hh
      · exact Or.inr (List.mem_cons_of_mem _ hh)
    · rw [if_neg hc] at hx
      rcases ih _ x hx with hh | hh
      · rw [List.mem_append] at hh
        rcases hh with hh | hh
        · exact Or.inl hh
        · rw [List.mem_singleton] at hh
          rw [hh]
          exact Or.inr (List.mem_cons_self _ _)
      · exact Or.inr (List.mem_cons_of_mem _ hh)

theorem truthy_of_mem_toList (w x : Json) (hx : x ∈ jToList w)
    (ht : jTruthy x = true) : jTruthy w = true := by
  cases w with
  | arr l =>
    simp only [jToList] at hx
    cases l with
    | nil => simp at hx
    | cons y ys => rfl
  | null => simp [jToList] at hx; rw [hx] at ht; exact ht
  | bool b => simp [jToList] at hx; rw [hx] at ht; exact ht
  | num n => simp [jToList] at hx; rw [hx] at ht; exact ht
  | str s => simp [jToList] at hx; rw [hx] at ht; exact ht
  | obj o => simp [jToList] at hx; rw [hx] at ht; exact ht

theorem mergeLista_eq (w nv : Json) (hw : jTruthy w = true) :
    ∃ resultado : List Json,
      (∀ x ∈ jToList w, x ∈ resultado)
      ∧ (∀ x ∈ resultado, x ∈ jToList w ∨ x ∈ jToList nv)
      ∧ mergeListaValores (some w) nv
          = (match resultado with | [x] => x | l => .arr l) := by
  refine ⟨(jToList nv).foldl (fun acc item =>
    if acc.any (Json.beq item) then acc else acc ++ [item]) (jToList w),
    ?_, ?_, ?_⟩
  · intro x hx
    exact mem_foldl_append_if_new _ _ x hx
  · intro x hx
    exact foldl_append_if_new_subset _ _ x hx
  · unfold mergeListaValores
    simp only [hw, if_true]

theorem validar_shape (dom : Domain) (campo : String) (valores : List Json)
    (categoria : String) :
    validarValores dom campo valores categoria = valores
    ∨ ∃ strs : List String,
        validarValores dom campo valores categoria = strs.map Json.str := by
  unfold validarValores
  split
  · exact Or.inl rfl
  · split
    · dsimp only
      split
      · split
        · exact Or.inr ⟨_, rfl⟩
        · exact Or.inr ⟨_, rfl⟩
      · exact Or.inr ⟨_, rfl⟩
    · exact Or.inl rfl

theorem mergeCampoStep_fst (dom : Domain) (categoria : String)
    (acc : Ctx × List String) (kv : String × Json) :
    (mergeCampoStep dom categoria acc kv).1 = acc.1
    ∨ ∃ v, (mergeCampoStep dom categoria acc kv).1 = dset acc.1 kv.1 v := by
  obtain ⟨c0, m0⟩ := acc
  obtain ⟨k, v⟩ := kv
  unfold mergeCampoStep
  dsimp only
  repeat' split
  all_goals first
    | exact Or.inl rfl
    | exact Or.inr ⟨_, rfl⟩

theorem mergeCampoStep_dget_ne (dom : Domain) (categoria f : String)
    (acc : Ctx × List String) (kv : String × Json) (hne : kv.1 ≠ f) :
    dget (mergeCampoStep dom categoria acc kv).1 f = dget acc.1 f := by
  rcases mergeCampoStep_fst dom categoria acc kv with h | ⟨v, h⟩
  · rw [h]
  · rw [h, dget_dset, if_neg hne]

theorem mergeCampoStep_null_fst (dom : Domain) (categoria : String)
    (c0 : Ctx) (m0 : List String) (f : String) :
    (mergeCampoStep dom categoria (c0, m0) (f, .null)).1 = c0 := by
  unfold mergeCampoStep
  dsimp only
  split
  · split <;> rfl
  · next h => exact absurd rfl h

theorem mergeCampoStep_arrnil_fst (dom : Domain) (categoria : String)
    (c0 : Ctx) (m0 : List String) (f : String) :
    (mergeCampoStep dom categoria (c0, m0) (f, .arr [])).1 = c0 := by
  unfold mergeCampoStep
  dsimp only
  split
  · next h => exact Bool.noConfusion h
  · rw [validar_nil]
    split
    · split <;> rfl
    · next h => exact absurd rfl h

theorem jToList_ne_nil (w : Json) (hw : jTruthy w = true) : jToList w ≠ [] := by
  cases w with
  | arr l =>
    cases l with
    | nil => exact Bool.noConfusion hw
    | cons a t => exact fun h => List.noConfusion h
  | null => exact fun h => List.noConfusion h
  | bool b => exact fun h => List.noConfusion h
  | num n => exact fun h => List.noConfusion h
  | str s => exact fun h => List.noConfusion h
  | obj o => exact fun h => List.noConfusion h

theorem jToList_nonarr (x : Json) (h : ∀ l, x ≠ Json.arr l) : jToList x = [x] := by
  cases x
  case arr l => exact absurd rfl (h l)
  all_goals rfl

theorem map_str_cons (L : List String) (x : Json) (rest : List Json)
    (h : L.map Json.str = x :: rest) : ∃ s, x = Json.str s := by
  cases L with
  | nil => exact List.noConfusion h
  | cons s tl =>
    injection h with h1 h2
    exact ⟨s, h1.symm⟩

theorem validar_blank_head_str (dom : Domain) (f categoria : String)
    (x : Json) (rest : List Json)
    (hveq : validarValores dom f [Json.str ""] categoria = x :: rest) :
    ∃ s, x = Json.str s := by
  unfold validarValores at hveq
  split at hveq
  · injection hveq with h1 h2
    exact ⟨"", h1.symm⟩
  · split at hveq
    · dsimp only at hveq
      split at hveq
      · split at hveq
        · exact map_str_cons _ _ _ hveq
        · exact map_str_cons _ _ _ hveq
      · exact map_str_cons _ _ _ hveq
    · injection hveq with h1 h2
      exact ⟨"", h1.symm⟩

theorem isNullEmptyOrBlank_cases (v : Json) (h : isNullEmptyOrBlank v = true) :
    v = .null ∨ v = .arr [] ∨ v = .str "" := by
  rw [isNullEmptyOrBlank, Bool.or_eq_true, Bool.or_eq_true] at h
  rcases h with (h | h) | h
  · exact Or.inl (beq_null_eq v h)
  · exact Or.inr (Or.inl (beq_arrnil_eq v h))
  · exact Or.inr (Or.inr (beq_strempty_eq v h))

theorem isNullOrEmptyList_cases (v : Json) (h : isNullOrEmptyList v = true) :
    v = .null ∨ v = .arr [] := by
  rw [isNullOrEmptyList, Bool.or_eq_true] at h
  rcases h with h | h
  · exact Or.inl (beq_null_eq v h)
  · exact Or.inr (beq_arrnil_eq v h)

theorem mergeCampoStep_blank_retains (dom : Domain) (categoria : String)
    (c0 : Ctx) (m0 : List String) (f : String) (w : Json)
    (hw : dget c0 f = some w) (hwt : jTruthy w = true)
    (hflat : ∀ x ∈ jToList w, ∀ l, x ≠ Json.arr l)
    (helem : ∀ x ∈ jToList w, jTruthy x = true) :
    ∃ w', dget (mergeCampoStep dom categoria (c0, m0) (f, .str "")).1 f = some w'
      ∧ jTruthy w' = true
      ∧ (∀ x ∈ jToList w', ∀ l, x ≠ Json.arr l)
      ∧ (∀ x ∈ jToList w', jTruthy x = true)
      ∧ ∀ x ∈ jToList w, x ∈ jToList w' := by
  unfold mergeCampoStep
  dsimp only
  rw [hw]
  split
  · next h => exact Bool.noConfusion h
  · rcases hveq : validarValores dom f [Json.str ""] categoria with _ | ⟨x, rest⟩
    · dsimp only
      split
      · split <;> exact ⟨w, hw, hwt, hflat, helem, fun y hy => hy⟩
      · next h => exact absurd rfl h
    · dsimp only
      by_cases hxt : jTruthy x = true
      · have hcond : ¬((!jTruthy x) = true) := by
          rw [hxt]
          exact fun hh => Bool.noConfusion hh
        rw [if_neg hcond]
        by_cases hmul : campoPermiteMultiplos f = true
        · rw [if_pos hmul]
          obtain ⟨sx, hsx⟩ := validar_blank_head_str dom f categoria x rest hveq
          subst hsx
          obtain ⟨resultado, hsub, hsrc, hres⟩ := mergeLista_eq w (Json.str sx) hwt
          have hrflat : ∀ y ∈ resultado, ∀ l, y ≠ Json.arr l := by
            intro y hy l
            rcases hsrc y hy with hh | hh
            · exact hflat y hh l
            · have hys : y = Json.str sx := List.mem_singleton.mp hh
              rw [hys]
              exact fun hc => Json.noConfusion hc
          have hrtru : ∀ y ∈ resultado, jTruthy y = true := by
            intro y hy
            rcases hsrc y hy with hh | hh
            · exact helem y hh
            · have hys : y = Json.str sx := List.mem_singleton.mp hh
              rw [hys]
              exact hxt
          have hrne : resultado ≠ [] := by
            intro hnil
            have hne := jToList_ne_nil w hwt
            cases hjl : jToList w with
            | nil => exact hne hjl
            | cons a t =>
              have hmem := hsub a (by rw [hjl]; exact List.mem_cons_self a t)
              rw [hnil] at hmem
              exact List.not_mem_nil a hmem
          split
          · refine ⟨mergeListaValores (some w) (Json.str sx), ?_, ?_, ?_, ?_, ?_⟩
            · rw [dget_dset, if_pos rfl]
            · rw [hres]
              cases resultado with
              | nil => exact absurd rfl hrne
              | cons a t =>
                cases t with
                | nil => exact hrtru a (List.mem_cons_self a [])
                | cons b t2 => rfl
            · rw [hres]
              intro y hy l
              cases resultado with
              | nil => exact absurd rfl hrne
              | cons a t =>
                cases t with
                | nil =>
                  rw [jToList_nonarr a (hrflat a (List.mem_cons_self a []))] at hy
                  have hya : y = a := List.mem_singleton.mp hy
                  rw [hya]
                  exact hrflat a (List.mem_cons_self a []) l
                | cons b t2 => exact hrflat y hy l
            · rw [hres]
              intro y hy
              cases resultado with
              | nil => exact absurd rfl hrne
              | cons a t =>
                cases t with
                | nil =>
                  rw [jToList_nonarr a (hrflat a (List.mem_cons_self a []))] at hy
                  have hya : y = a := List.mem_singleton.mp hy
                  rw [hya]
                  exact hrtru a (List.mem_cons_self a [])
                | cons b t2 => exact hrtru y hy
            · intro y hy
              have hyr := hsub y hy
              rw [hres]
              cases resultado with
              | nil => exact absurd hyr (List.not_mem_nil y)
              | cons a t =>
                cases t with
                | nil =>
                  have hya : y = a := List.mem_singleton.mp hyr
                  subst hya
                  rw [jToList_nonarr y (hflat y hy)]
                  exact List.mem_singleton.mpr rfl
                | cons b t2 => exact hyr
          · exact ⟨w, hw, hwt, hflat, helem, fun y hy => hy⟩
        · have hperm := campoPermiteMultiplos_false_permissive f
            (Bool.eq_false_iff.mpr hmul)
          have hval := validar_permissive dom f [Json.str ""] categoria hperm
          rw [hval] at hveq
          injection hveq with h1 h2
          rw [← h1] at hxt
          exact Bool.noConfusion hxt
      · have hxf : jTruthy x = false := Bool.eq_false_iff.mpr hxt
        rw [if_pos (by rw [hxf]; rfl)]
        split <;> exact ⟨w, hw, hwt, hflat, helem, fun y hy => hy⟩

theorem isNullEmptyOrBlank_not_truthy (v : Json)
    (h : isNullEmptyOrBlank v = true) : jTruthy v = false := by
  rw [isNullEmptyOrBlank, Bool.or_eq_true, Bool.or_eq_true] at h
  rcases h with (h | h) | h
  · rw [beq_null_eq v h]
    rfl
  · rw [beq_arrnil_eq v h]
    rfl
  · rw [beq_strempty_eq v h]
    rfl

theorem dmem_exists (d : Ctx) (k : String) (h : dmem d k = true) :
    ∃ v, dget d k = some v := by
  unfold dmem at h
  exact Option.isSome_iff_exists.mp h

theorem periodoRangeStep_dget (cItems : List (String × Json))
    (acc : Ctx × List String) (campo f : String) (res' : Ctx × List String)
    (hok : periodoRangeStep (.obj cItems) acc campo = .ok res')
    (hval : campo = f → ∀ v, dget cItems f = some v → isNullEmptyOrBlank v = true) :
    dget res'.1 f = dget acc.1 f := by
  unfold periodoRangeStep at hok
  simp only [jIn] at hok
  by_cases h1 : dmem cItems campo = true
  · rw [if_pos h1] at hok
    obtain ⟨v, hv⟩ := dmem_exists _ _ h1
    simp only [jIndex, hv] at hok
    by_cases h2 : jTruthy v = true
    · rw [if_pos h2] at hok
      injection hok with hh
      rw [← hh]
      dsimp only
      by_cases h3 : campo = f
      · subst h3
        have := isNullEmptyOrBlank_not_truthy v (hval rfl v hv)
        rw [this] at h2
        exact Bool.noConfusion h2
      · rw [dget_dset, if_neg h3]
    · rw [if_neg h2] at hok
      injection hok with hh
      rw [← hh]
  · rw [if_neg h1] at hok
    injection hok with hh
    rw [← hh]

theorem periodo_dget_eq (campos : Json) (ctx' : Ctx) (f : String)
    (res : Ctx) (m : List String)
    (hok : processarPeriodoEstruturado campos ctx' = .ok (res, m))
    (hval : ∀ cItems, campos = .obj cItems →
        ∀ v, dget cItems f = some v → isNullEmptyOrBlank v = true)
    (hrep : strStarts f "Data" = true → periodoReplaces campos = false) :
    dget res f = dget ctx' f := by
  cases campos with
  | null => exact Except.noConfusion hok
  | bool b => exact Except.noConfusion hok
  | num n => exact Except.noConfusion hok
  | str s =>
    unfold processarPeriodoEstruturado periodoRangeStep at hok
    simp only [jIn, jIndex] at hok
    repeat' split at hok
    all_goals first
      | exact Except.noConfusion hok
      | (injection hok with hh; injection hh with ha hb; rw [← ha])
      | (injection hok with hh
         subst hh
         rename_i x hlt heq
         split at heq
         · exact Except.noConfusion heq
         · injection heq with hh2
           injection hh2 with ha hb
           rw [← ha])
  | arr l =>
    unfold processarPeriodoEstruturado periodoRangeStep at hok
    simp only [jIn, jIndex] at hok
    repeat' split at hok
    all_goals first
      | exact Except.noConfusion hok
      | (injection hok with hh; injection hh with ha hb; rw [← ha])
      | (injection hok with hh
         subst hh
         rename_i x hlt heq
         split at heq
         · exact Except.noConfusion heq
         · injection heq with hh2
           injection hh2 with ha hb
           rw [← ha])
  | obj cItems =>
    unfold processarPeriodoEstruturado at hok
    simp only [jIn, jIndex] at hok
    by_cases h1 : (dmem cItems "inicio" && dmem cItems "fim") = true
    · rw [if_pos h1] at hok
      have h1c := h1
      simp only [Bool.and_eq_true] at h1c
      obtain ⟨hi, hf⟩ := h1c
      obtain ⟨vi, hvi⟩ := dmem_exists _ _ hi
      obtain ⟨vf, hvf⟩ := dmem_exists _ _ hf
      simp only [hvi, hvf] at hok
      by_cases h2 : (jTruthy vi && jTruthy vf && jIsObj vi && jIsObj vf) = true
      · rw [if_pos h2] at hok
        cases hconv : convertIntervalRanges vi vf with
        | none =>
          rw [hconv] at hok
          injection hok with hh
          injection hh with ha hb
          rw [← ha]
        | some pr =>
          obtain ⟨ds, de⟩ := pr
          rw [hconv] at hok
          injection hok with hh
          injection hh with ha hb
          subst ha
          by_cases hD : strStarts f "Data" = true
          · have hPR : periodoReplaces (Json.obj cItems) = true := by
              simp only [Bool.and_eq_true] at h2
              obtain ⟨⟨⟨ha1, hb1⟩, hc1⟩, hd1⟩ := h2
              simp [periodoReplaces, hvi, hvf, ha1, hb1, hc1, hd1, hconv]
            rw [hrep hD] at hPR
            exact Bool.noConfusion hPR
          · have hne1 : ¬("Data_>=" = f) := fun hh =>
              hD (hh ▸ (by decide : strStarts "Data_>=" "Data" = true))
            have hne2 : ¬("Data_<" = f) := fun hh =>
              hD (hh ▸ (by decide : strStarts "Data_<" "Data" = true))
            rw [dget_dset, if_neg hne2, dget_dset, if_neg hne1,
              dget_deleteDataKeys _ _ (Bool.eq_false_iff.mpr hD)]
      · rw [if_neg h2] at hok
        injection hok with hh
        injection hh with ha hb
        rw [← ha]
    · rw [if_neg h1] at hok
      by_cases h3 : (dmem cItems "mes" && dmem cItems "ano") = true
      · rw [if_pos h3] at hok
        have h3c := h3
        simp only [Bool.and_eq_true] at h3c
        obtain ⟨hm, hano⟩ := h3c
        obtain ⟨vm, hvm⟩ := dmem_exists _ _ hm
        obtain ⟨va, hva⟩ := dmem_exists _ _ hano
        simp only [hvm, hva] at hok
        by_cases h4 : (jTruthy vm && jTruthy va) = true
        · rw [if_pos h4] at hok
          cases hconv : convertMesAnoRanges vm va with
          | none =>
            rw [hconv] at hok
            injection hok with hh
            injection hh with ha hb
            rw [← ha]
          | some pr =>
            obtain ⟨ds, de⟩ := pr
            rw [hconv] at hok
            injection hok with hh
            injection hh with ha hb
            subst ha
            by_cases hD : strStarts f "Data" = true
            · have h1f : (dmem cItems "inicio" && dmem cItems "fim") = false :=
                Bool.eq_false_iff.mpr h1
              have hPR : periodoReplaces (Json.obj cItems) = true := by
                have h4c := h4
                simp only [Bool.and_eq_true] at h4c
                obtain ⟨ht1, ht2⟩ := h4c
                simp [periodoReplaces, hvm, hva, hconv, h1f, ht1, ht2]
              rw [hrep hD] at hPR
              exact Bool.noConfusion hPR
            · have hne1 : ¬("Data_>=" = f) := fun hh =>
                hD (hh ▸ (by decide : strStarts "Data_>=" "Data" = true))
              have hne2 : ¬("Data_<" = f) := fun hh =>
                hD (hh ▸ (by decide : strStarts "Data_<" "Data" = true))
              rw [dget_dset, if_neg hne2, dget_dset, if_neg hne1,
                dget_deleteDataKeys _ _ (Bool.eq_false_iff.mpr hD)]
        · rw [if_neg h4] at hok
          injection hok with hh
          injection hh with ha hb
          rw [← ha]
      · rw [if_neg h3] at hok
        by_cases h5 : (dmem cItems "Data_>=" || dmem cItems "Data_<") = true
        · rw [if_pos h5] at hok
          cases hstep1 : periodoRangeStep (.obj cItems) (ctx', []) "Data_>=" with
          | error e =>
            rw [hstep1] at hok
            exact Except.noConfusion hok
          | ok acc1 =>
            rw [hstep1] at hok
            have hd1 := periodoRangeStep_dget cItems (ctx', []) "Data_>=" f acc1
              hstep1 (fun _ => hval cItems rfl)
            have hd2 := periodoRangeStep_dget cItems acc1 "Data_<" f (res, m)
              hok (fun _ => hval cItems rfl)
            exact hd2.trans hd1
        · rw [if_neg h5] at hok
          by_cases h6 : dmem cItems "Data" = true
          · rw [if_pos h6] at hok
            obtain ⟨vD, hvD⟩ := dmem_exists _ _ h6
            simp only [hvD] at hok
            by_cases h7 : jTruthy vD = true
            · rw [if_pos h7] at hok
              injection hok with hh
              injection hh with ha hb
              subst ha
              by_cases hDf : "Data" = f
              · subst hDf
                have hnt := isNullEmptyOrBlank_not_truthy vD (hval cItems rfl vD hvD)
                rw [hnt] at h7
                exact Bool.noConfusion h7
              · rw [dget_dset, if_neg hDf]
            · rw [if_neg h7] at hok
              injection hok with hh
              injection hh with ha hb
              rw [← ha]
          · rw [if_neg h6] at hok
            injection hok with hh
            injection hh with ha hb
            rw [← ha]

theorem nullempty_mono (v : Json) (h : isNullOrEmptyList v = true) :
    isNullEmptyOrBlank v = true := by
  rcases isNullOrEmptyList_cases v h with hv | hv <;> subst hv <;> rfl

theorem jItems_ok (campos : Json) (items : List (String × Json))
    (h : jItems campos = .ok items) : campos = .obj items := by
  cases campos
  case obj o =>
    injection h with hh
    rw [hh]
  all_goals exact Except.noConfusion h

theorem mergeFold_dget_eq (dom : Domain) (cat f : String) :
    ∀ (l : List (String × Json)) (acc : Ctx × List String),
      (∀ v, (f, v) ∈ l → isNullOrEmptyList v = true) →
      dget (l.foldl (mergeCampoStep dom cat) acc).1 f = dget acc.1 f := by
  intro l
  induction l with
  | nil =>
    intro acc hval
    rfl
  | cons kv rest ih =>
    intro acc hval
    obtain ⟨k, v⟩ := kv
    obtain ⟨c0, m0⟩ := acc
    simp only [List.foldl_cons]
    by_cases hk : k = f
    · subst hk
      rcases isNullOrEmptyList_cases v (hval v (List.mem_cons_self _ _)) with hv | hv
      · subst hv
        rw [ih _ (fun v hv => hval v (List.mem_cons_of_mem _ hv))]
        rw [mergeCampoStep_null_fst]
      · subst hv
        rw [ih _ (fun v hv => hval v (List.mem_cons_of_mem _ hv))]
        rw [mergeCampoStep_arrnil_fst]
    · rw [ih _ (fun v hv => hval v (List.mem_cons_of_mem _ hv))]
      exact mergeCampoStep_dget_ne dom cat f (c0, m0) (k, v) hk

theorem mergeFold_retains (dom : Domain) (cat f : String) :
    ∀ (l : List (String × Json)) (acc : Ctx × List String) (w : Json),
      (∀ v, (f, v) ∈ l → isNullEmptyOrBlank v = true) →
      dget acc.1 f = some w → jTruthy w = true →
      (∀ x ∈ jToList w, ∀ la, x ≠ Json.arr la) →
      (∀ x ∈ jToList w, jTruthy x = true) →
      ∃ w', dget (l.foldl (mergeCampoStep dom cat) acc).1 f = some w'
        ∧ jTruthy w' = true
        ∧ (∀ x ∈ jToList w', ∀ la, x ≠ Json.arr la)
        ∧ (∀ x ∈ jToList w', jTruthy x = true)
        ∧ ∀ x ∈ jToList w, x ∈ jToList w' := by
  intro l
  induction l with
  | nil =>
    intro acc w hval hw hwt hflat helem
    exact ⟨w, hw, hwt, hflat, helem, fun y hy => hy⟩
  | cons kv rest ih =>
    intro acc w hval hw hwt hflat helem
    obtain ⟨k, v⟩ := kv
    obtain ⟨c0, m0⟩ := acc
    simp only [List.foldl_cons]
    by_cases hk : k = f
    · subst hk
      rcases isNullEmptyOrBlank_cases v (hval v (List.mem_cons_self _ _))
        with hv | hv | hv
      · subst hv
        exact ih _ w (fun v hv => hval v (List.mem_cons_of_mem _ hv))
          (by rw [mergeCampoStep_null_fst]; exact hw) hwt hflat helem
      · subst hv
        exact ih _ w (fun v hv => hval v (List.mem_cons_of_mem _ hv))
          (by rw [mergeCampoStep_arrnil_fst]; exact hw) hwt hflat helem
      · subst hv
        obtain ⟨w1, hw1, hwt1, hflat1, helem1, hret1⟩ :=
          mergeCampoStep_blank_retains dom cat c0 m0 k w hw hwt hflat helem
        obtain ⟨w2, hw2, hwt2, hflat2, helem2, hret2⟩ :=
          ih _ w1 (fun v hv => hval v (List.mem_cons_of_mem _ hv)) hw1 hwt1 hflat1 helem1
        exact ⟨w2, hw2, hwt2, hflat2, helem2, fun y hy => hret2 _ (hret1 y hy)⟩
    · refine ih _ w (fun v hv => hval v (List.mem_cons_of_mem _ hv)) ?_ hwt hflat helem
      rw [mergeCampoStep_dget_ne dom cat f (c0, m0) (k, v) hk]
      exact hw

theorem processarCategoria_dget_eq (dom : Domain) (cat : String) (campos : Json)
    (ctx0 : Ctx) (res : Ctx × List String) (f : String)
    (hok : processarCategoriaComMerge dom cat campos ctx0 = .ok res)
    (hval : ∀ cItems, campos = .obj cItems →
        ∀ v, (f, v) ∈ cItems → isNullOrEmptyList v = true)
    (hrep : cat = "periodo" → strStarts f "Data" = true →
        periodoReplaces campos = false) :
    dget res.1 f = dget ctx0 f := by
  unfold processarCategoriaComMerge at hok
  by_cases hcat : cat = "periodo"
  · rw [if_pos hcat] at hok
    obtain ⟨r1, m1⟩ := res
    exact periodo_dget_eq campos ctx0 f r1 m1 hok
      (fun cItems hc v hv =>
        nullempty_mono v (hval cItems hc v (dget_some_mem _ _ _ hv)))
      (hrep hcat)
  · rw [if_neg hcat] at hok
    cases hji : jItems campos with
    | error e =>
      rw [hji] at hok
      exact Except.noConfusion hok
    | ok items =>
      rw [hji] at hok
      injection hok with hh
      have hco := jItems_ok campos items hji
      rw [← hh]
      exact mergeFold_dget_eq dom cat f items (ctx0, [])
        (fun v hv => hval items hco v hv)

theorem processarCategoria_retains (dom : Domain) (cat : String) (campos : Json)
    (ctx0 : Ctx) (res : Ctx × List String) (f : String) (w : Json)
    (hok : processarCategoriaComMerge dom cat campos ctx0 = .ok res)
    (hval : ∀ cItems, campos = .obj cItems →
        ∀ v, (f, v) ∈ cItems → isNullEmptyOrBlank v = true)
    (hrep : cat = "periodo" → strStarts f "Data" = true →
        periodoReplaces campos = false)
    (hw : dget ctx0 f = some w) (hwt : jTruthy w = true)
    (hflat : ∀ x ∈ jToList w, ∀ la, x ≠ Json.arr la)
    (helem : ∀ x ∈ jToList w, jTruthy x = true) :
    ∃ w', dget res.1 f = some w' ∧ jTruthy w' = true
      ∧ (∀ x ∈ jToList w', ∀ la, x ≠ Json.arr la)
      ∧ (∀ x ∈ jToList w', jTruthy x = true)
      ∧ ∀ x ∈ jToList w, x ∈ jToList w' := by
  unfold processarCategoriaComMerge at hok
  by_cases hcat : cat = "periodo"
  · rw [if_pos hcat] at hok
    obtain ⟨r1, m1⟩ := res
    have heq := periodo_dget_eq campos ctx0 f r1 m1 hok
      (fun cItems hc v hv => hval cItems hc v (dget_some_mem _ _ _ hv))
      (hrep hcat)
    exact ⟨w, heq.trans hw, hwt, hflat, helem, fun y hy => hy⟩
  · rw [if_neg hcat] at hok
    cases hji : jItems campos with
    | error e =>
      rw [hji] at hok
      exact Except.noConfusion hok
    | ok items =>
      rw [hji] at hok
      injection hok with hh
      have hco := jItems_ok campos items hji
      rw [← hh]
      exact mergeFold_retains dom cat f items (ctx0, []) w
        (fun v hv => hval items hco v hv) hw hwt hflat helem

theorem catLoop_dget_eq (dom : Domain) (f : String) :
    ∀ (items : List (String × Json)) (acc res : Ctx × List String),
      catLoop dom items acc = .ok res →
      (∀ cat campos cItems, (cat, campos) ∈ items → campos = .obj cItems →
          ∀ v, (f, v) ∈ cItems → isNullOrEmptyList v = true) →
      (strStarts f "Data" = true → ∀ campos, ("periodo", campos) ∈ items →
          periodoReplaces campos = false) →
      dget res.1 f = dget acc.1 f := by
  intro items
  induction items with
  | nil =>
    intro acc res hok hval hper
    injection hok with hh
    rw [← hh]
  | cons kv rest ih =>
    intro acc res hok hval hper
    obtain ⟨cat, campos⟩ := kv
    unfold catLoop at hok
    dsimp only at hok
    by_cases hc : cat ∈ fiveCats
    · rw [if_pos hc] at hok
      cases hp : processarCategoriaComMerge dom cat campos acc.1 with
      | error e =>
        rw [hp] at hok
        exact Except.noConfusion hok
      | ok st =>
        obtain ⟨c1, m1⟩ := st
        rw [hp] at hok
        dsimp only at hok
        rw [ih (c1, acc.2 ++ m1) res hok
          (fun cat2 campos2 cItems hm hco v hv =>
            hval cat2 campos2 cItems (List.mem_cons_of_mem _ hm) hco v hv)
          (fun hD campos2 hm => hper hD campos2 (List.mem_cons_of_mem _ hm))]
        exact processarCategoria_dget_eq dom cat campos acc.1 (c1, m1) f hp
          (fun cItems hco v hv =>
            hval cat campos cItems (List.mem_cons_self _ _) hco v hv)
          (fun hcp hD => hper hD campos (hcp ▸ List.mem_cons_self _ _))
    · rw [if_neg hc] at hok
      exact ih acc res hok
        (fun cat2 campos2 cItems hm hco v hv =>
          hval cat2 campos2 cItems (List.mem_cons_of_mem _ hm) hco v hv)
        (fun hD campos2 hm => hper hD campos2 (List.mem_cons_of_mem _ hm))

theorem catLoop_retains (dom : Domain) (f : String) :
    ∀ (items : List (String × Json)) (acc res : Ctx × List String) (w : Json),
      catLoop dom items acc = .ok res →
      (∀ cat campos cItems, (cat, campos) ∈ items → campos = .obj cItems →
          ∀ v, (f, v) ∈ cItems → isNullEmptyOrBlank v = true) →
      (strStarts f "Data" = true → ∀ campos, ("periodo", campos) ∈ items →
          periodoReplaces campos = false) →
      dget acc.1 f = some w → jTruthy w = true →
      (∀ x ∈ jToList w, ∀ la, x ≠ Json.arr la) →
      (∀ x ∈ jToList w, jTruthy x = true) →
      ∃ w', dget res.1 f = some w' ∧ jTruthy w' = true
        ∧ (∀ x ∈ jToList w', ∀ la, x ≠ Json.arr la)
        ∧ (∀ x ∈ jToList w', jTruthy x = true)
        ∧ ∀ x ∈ jToList w, x ∈ jToList w' := by
  intro items
  induction items with
  | nil =>
    intro acc res w hok hval hper hw hwt hflat helem
    injection hok with hh
    rw [← hh]
    exact ⟨w, hw, hwt, hflat, helem, fun y hy => hy⟩
  | cons kv rest ih =>
    intro acc res w hok hval hper hw hwt hflat helem
    obtain ⟨cat, campos⟩ := kv
    unfold catLoop at hok
    dsimp only at hok
    by_cases hc : cat ∈ fiveCats
    · rw [if_pos hc] at hok
      cases hp : processarCategoriaComMerge dom cat campos acc.1 with
      | error e =>
        rw [hp] at hok
        exact Except.noConfusion hok
      | ok st =>
        obtain ⟨c1, m1⟩ := st
        rw [hp] at hok
        dsimp only at hok
        obtain ⟨w1, hw1, hwt1, hflat1, helem1, hret1⟩ :=
          processarCategoria_retains dom cat campos acc.1 (c1, m1) f w hp
            (fun cItems hco v hv =>
              hval cat campos cItems (List.mem_cons_self _ _) hco v hv)
            (fun hcp hD => hper hD campos (hcp ▸ List.mem_cons_self _ _))
            hw hwt hflat helem
        obtain ⟨w2, hw2, hwt2, hflat2, helem2, hret2⟩ :=
          ih (c1, acc.2 ++ m1) res w1 hok
            (fun cat2 campos2 cItems hm hco v hv =>
              hval cat2 campos2 cItems (List.mem_cons_of_mem _ hm) hco v hv)
            (fun hD campos2 hm => hper hD campos2 (List.mem_cons_of_mem _ hm))
            hw1 hwt1 hflat1 helem1
        exact ⟨w2, hw2, hwt2, hflat2, helem2, fun y hy => hret2 _ (hret1 y hy)⟩
    · rw [if_neg hc] at hok
      exact ih acc res w hok
        (fun cat2 campos2 cItems hm hco v hv =>
          hval cat2 campos2 cItems (List.mem_cons_of_mem _ hm) hco v hv)
        (fun hD campos2 hm => hper hD campos2 (List.mem_cons_of_mem _ hm))
        hw hwt hflat helem

theorem remocaoStep_dget_ne (acc : Ctx × List String) (filtro : Json) (f : String)
    (h : filtro ≠ Json.str f) :
    dget (remocaoStep acc filtro).1 f = dget acc.1 f := by
  unfold remocaoStep
  cases filtro with
  | str k =>
    cases hg : dget acc.1 k with
    | some v =>
      simp only [hg]
      exact dget_ddel_ne acc.1 k f (fun hk => h (by rw [hk]))
    | none => simp only [hg]
  | null => rfl
  | bool b => rfl
  | num n => rfl
  | arr l => rfl
  | obj o => rfl

theorem remocoesFold_dget (f : String) :
    ∀ (items : List Json) (acc : Ctx × List String),
      Json.str f ∉ items →
      dget (items.foldl remocaoStep acc).1 f = dget acc.1 f := by
  intro items
  induction items with
  | nil =>
    intro acc h
    rfl
  | cons hd t ih =>
    intro acc h
    simp only [List.foldl_cons]
    rw [ih _ (fun hm => h (List.mem_cons_of_mem _ hm))]
    exact remocaoStep_dget_ne acc hd f (fun he => h (he ▸ List.mem_cons_self _ _))

theorem atualizar_skeleton (dom : Domain) (items : List (String × Json))
    (ctx res : Ctx) (m : List String) (f : String)
    (hok : atualizarFiltrosDoJson dom (.obj items) ctx = .ok (res, m))
    (hclear : ∀ v, dget items "clear_all_filters" = some v → jTruthy v = false)
    (hlimpar : ∀ v, dget items "limpar_filtros" = some v → jTruthy v = false)
    (hrem : ∀ r, dget items "remover_filtros" = some r →
        ∀ ritems, jIter r = .ok ritems → Json.str f ∉ ritems) :
    ∃ st : Ctx × List String, ∃ M : List String,
      catLoop dom items (ctx, M) = .ok st ∧ dget res f = dget st.1 f := by
  unfold atualizarFiltrosDoJson at hok
  simp only [jGetM, jItems] at hok
  have hc1 : truthyOpt (dget items "clear_all_filters") = false := by
    cases hg : dget items "clear_all_filters" with
    | none => rfl
    | some v => simpa [truthyOpt] using hclear v hg
  have hc2 : truthyOpt (dget items "limpar_filtros") = false := by
    cases hg : dget items "limpar_filtros" with
    | none => rfl
    | some v => simpa [truthyOpt] using hlimpar v hg
  split at hok
  · next h => rw [hc1] at h; exact Bool.noConfusion h
  · split at hok
    · next h => rw [hc2] at h; exact Bool.noConfusion h
    · cases htot : totalLoop items 0 with
      | error e =>
        rw [htot] at hok
        exact Except.noConfusion hok
      | ok total =>
        rw [htot] at hok
        dsimp only at hok
        split at hok
        · exact Except.noConfusion hok
        · rename_i state2 hcl
          cases hrm : dget items "remover_filtros" with
          | none =>
            rw [hrm] at hok
            dsimp only at hok
            injection hok with hh
            injection hh with ha hb
            exact ⟨state2, _, hcl, by rw [← ha]⟩
          | some r =>
            rw [hrm] at hok
            dsimp only at hok
            by_cases hrt : jTruthy r = true
            · rw [if_pos hrt] at hok
              unfold processarRemocoes at hok
              cases hit : jIter r with
              | error e =>
                rw [hit] at hok
                exact Except.noConfusion hok
              | ok ritems =>
                rw [hit] at hok
                dsimp only at hok
                rcases hp : ritems.foldl remocaoStep (state2.1, []) with ⟨c2, m2⟩
                rw [hp] at hok
                dsimp only at hok
                injection hok with hh
                injection hh with ha hb
                refine ⟨state2, _, hcl, ?_⟩
                rw [← ha]
                have hfd := remocoesFold_dget f ritems (state2.1, [])
                  (hrem r hrm ritems hit)
                rw [hp] at hfd
                exact hfd
            · rw [if_neg hrt] at hok
              injection hok with hh
              injection hh with ha hb
              exact ⟨state2, _, hcl, by rw [← ha]⟩

/-- **C1**: non-destructive merge.  For an existing context holding a
non-empty value `w` at field `f` (a scalar or a flat list of truthy
scalars), a filter-update JSON whose clear flags are falsy, whose
`remover_filtros` does not name `f`, whose candidate values listed for `f`
are all `null`/`[]`/`""`, and (for `Data*` fields) whose `periodo` payload
carries no explicit non-empty structured period, `_atualizar_filtros_do_json`
keeps `f` present with a truthy value retaining every prior element; and
when the candidates for `f` are only `null`/`[]` (no `""`), the prior
value is preserved exactly. -/
theorem c1_non_destructive_merge
    (dom : Domain) (items : List (String × Json)) (ctx : Ctx)
    (res : Ctx) (m : List String) (f : String) (w : Json)
    (hok : atualizarFiltrosDoJson dom (.obj items) ctx = .ok (res, m))
    (hclear : ∀ v, dget items "clear_all_filters" = some v → jTruthy v = false)
    (hlimpar : ∀ v, dget items "limpar_filtros" = some v → jTruthy v = false)
    (hrem : ∀ r, dget items "remover_filtros" = some r →
        ∀ ritems, jIter r = .ok ritems → Json.str f ∉ ritems)
    (hcand : ∀ cat campos cItems, (cat, campos) ∈ items → campos = .obj cItems →
        ∀ v, (f, v) ∈ cItems → isNullEmptyOrBlank v = true)
    (hper : strStarts f "Data" = true → ∀ campos, ("periodo", campos) ∈ items →
        periodoReplaces campos = false)
    (hw : dget ctx f = some w) (hwt : jTruthy w = true)
    (hflat : ∀ x ∈ jToList w, ∀ la, x ≠ Json.arr la)
    (helem : ∀ x ∈ jToList w, jTruthy x = true) :
    (∃ w', dget res f = some w' ∧ jTruthy w' = true
        ∧ ∀ x ∈ jToList w, x ∈ jToList w')
    ∧ ((∀ cat campos cItems, (cat, campos) ∈ items → campos = .obj cItems →
          ∀ v, (f, v) ∈ cItems → isNullOrEmptyList v = true) →
        dget res f = some w) := by
  obtain ⟨st, M, hcl, hkey⟩ :=
    atualizar_skeleton dom items ctx res m f hok hclear hlimpar hrem
  constructor
  · obtain ⟨w', hw', hwt', hflat', helem', hret'⟩ :=
      catLoop_retains dom f items (ctx, M) st w hcl hcand hper hw hwt hflat helem
    exact ⟨w', hkey.trans hw', hwt', hret'⟩
  · intro hstrong
    have heq := catLoop_dget_eq dom f items (ctx, M) st hcl hstrong hper
    rw [hkey, heq]
    exact hw

theorem c1_non_destructive_merge_witness :
    (∃ w', dget [("UF_Cliente", Json.str "SC")] "UF_Cliente" = some w'
        ∧ jTruthy w' = true
        ∧ ∀ x ∈ jToList (Json.str "SC"), x ∈ jToList w')
    ∧ ((∀ cat campos cItems,
          (cat, campos) ∈ [("regiao", Json.obj [("UF_Cliente", Json.null)])] →
          campos = .obj cItems →
          ∀ v, ("UF_Cliente", v) ∈ cItems → isNullOrEmptyList v = true) →
        dget [("UF_Cliente", Json.str "SC")] "UF_Cliente"
          = some (Json.str "SC")) :=
  c1_non_destructive_merge []
    [("regiao", Json.obj [("UF_Cliente", Json.null)])]
    [("UF_Cliente", Json.str "SC")]
    [("UF_Cliente", Json.str "SC")]
    ["Contexto inicial: 1 filtros ativos",
     "JSON extraído: 1 campos em 1 categorias",
     "Preservado: UF_Cliente = SC (JSON null, mas valor existe)",
     "Contexto final: 1 filtros ativos"]
    "UF_Cliente" (Json.str "SC")
    rfl
    (fun v h => Option.noConfusion h)
    (fun v h => Option.noConfusion h)
    (fun r h => Option.noConfusion h)
    (by
      intro cat campos cItems hm hco v hv
      rw [List.mem_singleton] at hm
      injection hm with h1 h2
      have hco2 := h2.symm.trans hco
      injection hco2 with h3
      rw [← h3] at hv
      rw [List.mem_singleton] at hv
      injection hv with h4 h5
      rw [h5]
      rfl)
    (fun h => Bool.noConfusion h)
    rfl
    rfl
    (by
      intro x hx la
      rw [List.mem_singleton.mp hx]
      exact fun hc => Json.noConfusion hc)
    (by
      intro x hx
      rw [List.mem_singleton.mp hx]
      rfl)

end S2P
